import Mathlib

/-!
Verification of the dialpad-openclaw-skill webhook server and companion
scripts.  The Python sources (`webhook_server.py`, `scripts/poll_voicemails.py`,
`scripts/call_lookup.py`) are shallowly embedded below: JSON payload values
become the inductive type `Val`, Python truthiness / `str()` / `.lower()` /
`.strip()` become executable Lean functions, and each Python function under
scrutiny is translated definition-by-definition.  External I/O (HTTP requests,
SQLite, Telegram, the Dialpad API, wall-clock time) is passed in as explicit
oracle parameters.
-/

set_option maxRecDepth 10000

namespace Dialpad

/-- A JSON-like Python value as carried by the webhook payloads.
Numbers are modelled as integers (the code paths under verification never
construct non-integral numbers from payload data). -/
inductive Val where
  | null
  | bool (b : Bool)
  | int (n : Int)
  | str (s : String)
  | list (xs : List Val)
  | dict (kvs : List (String × Val))

/-- A JSON object (Python dict), as an association list. -/
abbrev Obj := List (String × Val)

/-- Python truthiness (`bool(v)`). -/
def truthy : Val → Bool
  | .null => false
  | .bool b => b
  | .int n => n != 0
  | .str s => s != ""
  | .list xs => !xs.isEmpty
  | .dict kvs => !kvs.isEmpty

/-- Python `a or b` (returns `a` when truthy, else `b`). -/
def pyOr (a b : Val) : Val := if truthy a then a else b

/-- `dict.get(k)` — first binding wins (Python dicts have unique keys). -/
def getV (o : Obj) (k : String) : Option Val :=
  (o.find? (fun p => p.1 == k)).map (fun p => p.2)

/-- `dict.get(k, d)`. -/
def getVD (o : Obj) (k : String) (d : Val) : Val := (getV o k).getD d

/-- `k in dict`. -/
def hasKey (o : Obj) (k : String) : Bool := (getV o k).isSome

/-- Body of Python `repr()` for a string: backslash-escape the quote,
backslash and control characters. -/
def reprStrBody : List Char → String
  | [] => ""
  | c :: cs =>
      (if c = '\\' then "\\\\"
       else if c = '\'' then "\\'"
       else if c = '\n' then "\\n"
       else if c = '\r' then "\\r"
       else if c = '\t' then "\\t"
       else String.mk [c]) ++ reprStrBody cs

/-- Python `repr()` of a string, with Python's default single quotes. -/
def reprStr (s : String) : String := "'" ++ reprStrBody s.data ++ "'"

mutual

/-- Python `repr()` of a value (as used by `str()` on lists/dicts). -/
def pyRepr : Val → String
  | .null => "None"
  | .bool b => if b then "True" else "False"
  | .int n => toString n
  | .str s => reprStr s
  | .list xs => "[" ++ pyReprList xs ++ "]"
  | .dict kvs => "\x7b" ++ pyReprPairs kvs ++ "\x7d"

def pyReprList : List Val → String
  | [] => ""
  | [x] => pyRepr x
  | x :: y :: xs => pyRepr x ++ ", " ++ pyReprList (y :: xs)

def pyReprPairs : List (String × Val) → String
  | [] => ""
  | [p] => reprStr p.1 ++ ": " ++ pyRepr p.2
  | p :: q :: ps => reprStr p.1 ++ ": " ++ pyRepr p.2 ++ ", " ++ pyReprPairs (q :: ps)

end

/-- Python `str()` of a value. -/
def pyStr : Val → String
  | .null => "None"
  | .bool b => if b then "True" else "False"
  | .int n => toString n
  | .str s => s
  | .list xs => pyRepr (.list xs)
  | .dict kvs => pyRepr (.dict kvs)

/-- Python `str.lower()` (ASCII model). -/
def pyLower (s : String) : String := String.mk (s.data.map Char.toLower)

/-- Python whitespace for `str.strip()` (ASCII model: also vertical tab and
form feed, which Lean's `Char.isWhitespace` excludes). -/
def isPySpace (c : Char) : Bool :=
  c = ' ' || c = '\t' || c = '\n' || c = '\r' || c = '\x0b' || c = '\x0c'

/-- `str.strip()` on a character list. -/
def pyStripL (l : List Char) : List Char :=
  ((l.dropWhile isPySpace).reverse.dropWhile isPySpace).reverse

/-- Python `str.strip()`. -/
def pyStrip (s : String) : String := String.mk (pyStripL s.data)

/-- Substring test on character lists (Python `needle in haystack`). -/
def containsSub (n : List Char) : List Char → Bool
  | [] => n.isPrefixOf []
  | c :: rest => n.isPrefixOf (c :: rest) || containsSub n rest

/-! ## `normalize_phone_number` (duplicated in `webhook_server.py` lines
119-134 and `scripts/poll_voicemails.py` lines 33-48; the two copies are
textually identical). -/

/-- An exact (unnormalised) rational, modelling Python float values produced
by `float()` on decimal literals.  The denominator is a positive power of
ten by construction.  Kept unnormalised so that all arithmetic is plain
integer arithmetic. -/
structure Frac where
  num : Int
  den : Int

/-- Numeric strict order on fractions (denominators positive). -/
def fracLt (a b : Frac) : Bool := decide (a.num * b.den < b.num * a.den)

/-- Numeric equality on fractions (denominators positive). -/
def fracEq (a b : Frac) : Bool := a.num * b.den == b.num * a.den

/-- Floor of a fraction. -/
def fracFloor (q : Frac) : Int := q.num.fdiv q.den

/-- Truncation toward zero (Python `int()` of a float). -/
def fracTrunc (q : Frac) : Int :=
  if q.num ≥ 0 then q.num.fdiv q.den else -((-q.num).fdiv q.den)

/-- Python `round()` to an integer: nearest, ties to even. -/
def pyRound (q : Frac) : Int :=
  let f := fracFloor q
  let r2 := 2 * (q.num - f * q.den)
  if r2 < q.den then f
  else if r2 > q.den then f + 1
  else if f % 2 = 0 then f else f + 1

/-- Digit extraction, country-code trimming and last-10 truncation of
`normalize_phone_number`, on the already-stringified input. -/
def npnCore (s : String) : Option String :=
  let digits0 := s.data.filter Char.isDigit
  if digits0 = [] then none
  else
    let digits :=
      if digits0.length = 11 ∧ digits0.head? = some '1' then digits0.tail else digits0
    if digits.length ≥ 10 then some (String.mk (digits.drop (digits.length - 10)))
    else some (String.mk digits)

/-- `webhook_server.normalize_phone_number`. -/
def normalize_phone_number (phone_number : Val) : Option String :=
  if ¬ truthy phone_number then none
  else npnCore (pyStr phone_number)

/-- `poll_voicemails.normalize_phone_number` (an identical second copy of the
function lives in the poller script; it is embedded separately so that facts
about both copies can be stated). -/
def poll_normalize_phone_number (phone_number : Val) : Option String :=
  if ¬ truthy phone_number then none
  else npnCore (pyStr phone_number)

/-! ## Idempotent "seen" ledger (`scripts/poll_voicemails.py` lines 125-147).
The SQLite table `voicemails_seen (call_id TEXT PRIMARY KEY, notified_at TEXT
NOT NULL)` is modelled as a list of rows; the `PRIMARY KEY` constraint makes
`INSERT OR IGNORE` a no-op when the key is already present. -/

/-- One row of the `voicemails_seen` table. -/
abbrev Ledger := List (String × String)

/-- `has_seen`: `SELECT 1 FROM voicemails_seen WHERE call_id = ?` is non-empty. -/
def has_seen (db : Ledger) (call_id : String) : Bool :=
  db.any (fun r => r.1 == call_id)

/-- `mark_seen`: `INSERT OR IGNORE INTO voicemails_seen (call_id, notified_at)
VALUES (?, ?)`; `notified_at` is the wall-clock timestamp, passed as an
explicit argument. -/
def mark_seen (db : Ledger) (call_id notified_at : String) : Ledger :=
  if has_seen db call_id then db else db ++ [(call_id, notified_at)]

/-! ## Message-text extraction and blankness (`webhook_server.py` 230-244). -/

/-- `is_blank_text`: `not str(value or "").strip()`. -/
def is_blank_text (value : Val) : Bool :=
  (pyStrip (pyStr (pyOr value (.str "")))).isEmpty

/-- `extract_message_text`: text payload of a webhook event as a string. -/
def extract_message_text (data : Obj) : String :=
  let text := getVD data "text" (.str "")
  let text_content := getVD data "text_content" (.str "")
  if ¬ is_blank_text text then pyStr text
  else if ¬ is_blank_text text_content then pyStr text_content
  else pyStr (pyOr text (pyOr text_content (.str "")))

/-! ## SMS payload normalisation (`webhook_server.py` 484-518). -/

/-- `first_value` (webhook handler variant, lines 275-279): first item of a
list/tuple, `None` for an empty one, passthrough otherwise. -/
def first_value : Val → Val
  | .list xs => match xs with
    | [] => .null
    | x :: _ => x
  | v => v

/-- `_first_value` (normaliser variant, lines 484-488; checks `list` only —
identical on JSON values, kept as its own definition to mirror the source). -/
def firstValueU : Val → Val
  | .list xs => match xs with
    | [] => .null
    | x :: _ => x
  | v => v

/-- The normalised SMS object returned by `normalize_sms_payload`. -/
structure NormalizedSMS where
  sender : Val
  sender_number : Val
  recipient_number : Val
  text : Val
  timestamp : Val
  conversation_id : Val
  message_id : Val
  direction : Val

/-- `contact_name = contact_info or (data.get("contact", {}) or {}).get("name")`;
`none` models the `AttributeError` Python raises when the lazily-evaluated
right operand calls `.get` on a truthy non-dict `contact` value. -/
def contactNameOf (data : Obj) (contact_info : Val) : Option Val :=
  if truthy contact_info then some contact_info
  else
    match pyOr (getVD data "contact" (.dict [])) (.dict []) with
    | .dict kvs => some (getVD kvs "name" .null)
    | _ => none

/-- `normalize_sms_payload`.  Returns `none` exactly when `contactNameOf`
models a raised `AttributeError`. -/
def normalize_sms_payload (data : Obj) (contact_info : Val) : Option NormalizedSMS :=
  match contactNameOf data contact_info with
  | none => none
  | some contact_name =>
    some
      { sender := pyOr contact_name (pyOr (getVD data "from_number" .null) (.str "Unknown"))
        sender_number := getVD data "from_number" .null
        recipient_number := firstValueU (getVD data "to_number" .null)
        text := pyOr (getVD data "text" (getVD data "text_content" (.str ""))) (.str "")
        timestamp :=
          pyOr (getVD data "timestamp" .null)
            (pyOr (getVD data "event_timestamp" .null)
              (pyOr (getVD data "created_date" .null) (getVD data "date_created" .null)))
        conversation_id := getVD data "conversation_id" .null
        message_id := pyOr (getVD data "message_id" .null) (getVD data "id" .null)
        direction := getVD data "direction" (.str "unknown") }

/-! ## Inbound classification (`webhook_server.py` 75-84, 282-330). -/

def MISSED_CALL_STATES : List String := ["missed", "no_answer", "unanswered"]

def MISSED_CALL_EVENT_HINTS : List String :=
  ["missed_call", "call.missed", "call_missed", "call missed"]

def CALL_CONTEXT_FIELDS : List String :=
  ["call_id", "call_missed", "call_state", "call_direction", "call_duration", "duration"]

/-- Substring test on strings (Python `needle in haystack`). -/
def strContains (hay needle : String) : Bool := containsSub needle.data hay.data

/-- Python `v is True` (identity with the singleton `True`). -/
def isTrueVal : Val → Bool
  | .bool b => b
  | _ => false

/-- The event-metadata text: `" ".join(str(data.get(k, "")).lower() for k in
("event_type", "event", "type", "subscription_type", "topic"))`. -/
def eventText (data : Obj) : String :=
  String.intercalate " "
    (["event_type", "event", "type", "subscription_type", "topic"].map
      (fun k => pyLower (pyStr (getVD data k (.str "")))))

/-- `data.get("direction", "")`-style lowered string. -/
def lowerField (data : Obj) (k : String) : String :=
  pyLower (pyStr (getVD data k (.str "")))

/-- The explicit missed-call signal disjunction inside
`detect_reliable_missed_call_hint`. -/
def hasMissedSignal (data : Obj) : Bool :=
  isTrueVal (getVD data "call_missed" .null)
  || isTrueVal (getVD data "missed_call" .null)
  || isTrueVal (getVD data "is_missed_call" .null)
  || MISSED_CALL_STATES.contains (lowerField data "call_state")
  || MISSED_CALL_EVENT_HINTS.any (fun h => strContains (eventText data) h)
  || (strContains (eventText data) "call"
      && (strContains (eventText data) "no_answer" || strContains (eventText data) "unanswered"))

/-- The call-context check inside `detect_reliable_missed_call_hint`. -/
def hasCallContext (data : Obj) : Bool :=
  CALL_CONTEXT_FIELDS.any (fun k => hasKey data k) || strContains (eventText data) "call"

/-- `detect_reliable_missed_call_hint` restricted to dict payloads (the
function returns `False` outright for non-dict input). -/
def detectHintObj (data : Obj) : Bool :=
  if lowerField data "direction" != "inbound" then false
  else if ¬ is_blank_text (.str (extract_message_text data)) then false
  else if ¬ hasMissedSignal data then false
  else if ¬ hasCallContext data then false
  else !(is_blank_text (first_value (getVD data "from_number" .null)))

/-- `detect_reliable_missed_call_hint`. -/
def detect_reliable_missed_call_hint : Val → Bool
  | .dict kvs => detectHintObj kvs
  | _ => false

/-- `classify_inbound_notification`: one of `sms`, `missed_call`, `blank_sms`,
`not_inbound`. -/
def classify_inbound_notification (data : Obj) : String :=
  if lowerField data "direction" != "inbound" then "not_inbound"
  else if detect_reliable_missed_call_hint (.dict data) then "missed_call"
  else if is_blank_text (.str (extract_message_text data)) then "blank_sms"
  else "sms"

/-! ## Call selection (`scripts/call_lookup.py` 102-189). -/

mutual

/-- `_extract_strings`: flatten a value into its string leaves; numbers and
booleans are stringified, strings kept, dicts/lists recursed, `None` (and
anything else) dropped. -/
def extractStrings : Val → List String
  | .null => []
  | .str s => [s]
  | .int n => [pyStr (.int n)]
  | .bool b => [pyStr (.bool b)]
  | .dict kvs => extractStringsPairs kvs
  | .list xs => extractStringsList xs

def extractStringsList : List Val → List String
  | [] => []
  | v :: vs => extractStrings v ++ extractStringsList vs

def extractStringsPairs : List (String × Val) → List String
  | [] => []
  | p :: ps => extractStrings p.2 ++ extractStringsPairs ps

end

/-- `_call_text_fields`: the strings of the `external_number`, `from_number`,
`to_number` and `contact` fields of a call. -/
def callTextFields (call : Obj) : List String :=
  (["external_number", "from_number", "to_number", "contact"].map
      (fun k => extractStrings (getVD call k .null))).flatten

/-- Value of a decimal digit run. -/
def digitsToNat (l : List Char) : Nat :=
  l.foldl (fun a c => a * 10 + (c.toNat - '0'.toNat)) 0

/-- Python `float()` on a stripped literal, modelled as an exact rational.
Handles `[sign] digits [. digits] [(e|E) [sign] digits]` (with at least one
digit in the mantissa): the value is
`sign * (int . frac) * 10^(esign * exp)`, built as an integer numerator over
a power-of-ten denominator.  `inf`/`nan`/underscore forms are not modelled —
on those this parser answers `none` where Python would produce a non-finite
float, which none of the verified properties exercise. -/
def pyFloat (s : String) : Option Frac :=
  let (sign, l1) : Int × List Char :=
    match s.data with
    | '+' :: r => (1, r)
    | '-' :: r => (-1, r)
    | l => (1, l)
  let intPart := l1.takeWhile Char.isDigit
  let rest1 := l1.dropWhile Char.isDigit
  let (fracPart, rest2) : List Char × List Char :=
    match rest1 with
    | '.' :: r => (r.takeWhile Char.isDigit, r.dropWhile Char.isDigit)
    | _ => ([], rest1)
  if intPart.isEmpty ∧ fracPart.isEmpty then none
  else
    let mantNum : Int := sign * (digitsToNat intPart * 10 ^ fracPart.length
      + digitsToNat fracPart)
    let mantDen : Int := (10 : Int) ^ fracPart.length
    match rest2 with
    | [] => some ⟨mantNum, mantDen⟩
    | e :: r3 =>
      if e = 'e' ∨ e = 'E' then
        let (eneg, r4) : Bool × List Char :=
          match r3 with
          | '+' :: r => (false, r)
          | '-' :: r => (true, r)
          | l => (false, l)
        let eDigits := r4.takeWhile Char.isDigit
        if eDigits.isEmpty ∨ ¬ (r4.dropWhile Char.isDigit).isEmpty then none
        else if eneg then some ⟨mantNum, mantDen * 10 ^ digitsToNat eDigits⟩
        else some ⟨mantNum * 10 ^ digitsToNat eDigits, mantDen⟩
      else none

/-- `_parse_timestamp`, parameterised by an oracle `isoTs` for
`datetime.fromisoformat(...).timestamp()` (whose value depends on the
process-local timezone for naive datetimes and is therefore not a pure
function of the string).  A Python `bool` passes the `isinstance(value,
(int, float))` check because `bool` subclasses `int`. -/
def parseTimestamp (isoTs : String → Option Frac) : Val → Option Frac
  | .null => none
  | .int n => some ⟨n, 1⟩
  | .bool b => some ⟨if b then 1 else 0, 1⟩
  | .str s =>
    let stripped := pyStrip s
    if stripped = "" then none
    else
      match pyFloat stripped with
      | some q => some q
      | none => isoTs (stripped.replace "Z" "+00:00")
  | .list _ => none
  | .dict _ => none

/-- Numeric strict order on optional timestamps, `none` standing for
`float("-inf")`. -/
def optQLT : Option Frac → Option Frac → Bool
  | none, none => false
  | none, some _ => true
  | some _, none => false
  | some a, some b => fracLt a b

/-- Numeric equality on optional timestamps. -/
def optQEq : Option Frac → Option Frac → Bool
  | none, none => true
  | some a, some b => fracEq a b
  | _, _ => false

/-- `max(..., default=-inf)`: the first maximal element, `none` when empty. -/
def maxFrac? (l : List (Option Frac)) : Option Frac :=
  l.foldl
    (fun acc q =>
      match q with
      | none => acc
      | some v =>
        match acc with
        | none => some v
        | some m => if fracLt m v then some v else some m)
    none

/-- `_call_sort_key`: best-available timestamp (max over the alias fields,
`-inf` when none parses) paired with the negated original index. -/
def callSortKey (isoTs : String → Option Frac) (call : Obj) (original_index : Nat) :
    Option Frac × Int :=
  (maxFrac? (["date_started", "started_at", "start_time", "date_created", "date"].map
      (fun name => parseTimestamp isoTs (getVD call name .null))),
   -(original_index : Int))

/-- Descending lexicographic comparison of sort keys (the comparator handed to
the stable sort to model `sorted(..., reverse=True)`). -/
def keyGE (a b : Option Frac × Int) : Bool :=
  optQLT b.1 a.1 || (optQEq a.1 b.1 && decide (b.2 ≤ a.2))

/-- `select_call`: restrict to calls whose text fields contain the
(case-insensitively lowered) filter, then return the top-ranked call. -/
def select_call (isoTs : String → Option Frac) (calls : List Obj)
    (with_value : Option String) : Option Obj :=
  if calls.isEmpty then none
  else
    let filterActive : Bool := match with_value with | some s => s != "" | none => false
    let needle := pyLower (with_value.getD "")
    let selected :=
      if filterActive then
        calls.filter (fun c => (callTextFields c).any (fun t => strContains (pyLower t) needle))
      else calls
    if filterActive && selected.isEmpty then none
    else
      match (selected.enum.mergeSort
          (fun p q => keyGE (callSortKey isoTs p.2 p.1) (callSortKey isoTs q.2 q.1))) with
      | [] => none
      | p :: _ => some p.2

/-! ## Sensitive-message filter (`webhook_server.py` 91-116, 247-272).
The module-level regexes are transcribed into executable matchers in
continuation-passing style: a matcher `M` receives the previous character (for
word boundaries) and the remaining input, and `re.search` existence is a scan
over all start positions.  Bounded optional groups (`[- ]?`,
`(?:entication)?`, `(?:pass(?:word)?|code)`) are expanded into their finitely
many literal alternatives. -/

/-- Matchers: previous character (none at string start) and remaining input. -/
abbrev M := Option Char → List Char → Bool

/-- Regex word character (`\w`, ASCII model). -/
def isWordChar (c : Char) : Bool := c.isAlphanum || c = '_'

def wordOpt : Option Char → Bool
  | none => false
  | some c => isWordChar c

/-- `\b`: exactly one side of the position is a word character. -/
def boundaryOk (prev next : Option Char) : Bool := wordOpt prev != wordOpt next

/-- `\b` then continue. -/
def bnd (k : M) : M := fun prev l => boundaryOk prev l.head? && k prev l

/-- Case-insensitive literal, then continue. -/
def litM : List Char → M → M
  | [], k => k
  | c :: cs, k => fun _ l =>
    match l with
    | [] => false
    | x :: xs => x.toLower == c.toLower && litM cs k (some x) xs

/-- Alternation of case-insensitive literals. -/
def altM (ws : List String) (k : M) : M :=
  fun prev l => ws.any (fun w => litM w.data k prev l)

/-- `.{0,n}` (any non-newline character, zero to `n` times), then continue. -/
def gapLe : Nat → M → M
  | 0, k => k
  | n + 1, k => fun prev l =>
    k prev l ||
      (match l with
       | [] => false
       | c :: rest => c != '\n' && gapLe n k (some c) rest)

/-- `\d{n}`, then continue. -/
def digitsExact : Nat → M → M
  | 0, k => k
  | n + 1, k => fun _ l =>
    match l with
    | [] => false
    | c :: rest => c.isDigit && digitsExact n k (some c) rest

/-- `\d{0,n}`, then continue. -/
def digitsUpTo : Nat → M → M
  | 0, k => k
  | n + 1, k => fun prev l =>
    k prev l ||
      (match l with
       | [] => false
       | c :: rest => c.isDigit && digitsUpTo n k (some c) rest)

/-- One `\d[\s-]?` group of the code-token pattern. -/
def grp (k : M) : M := fun _ l =>
  match l with
  | [] => false
  | c :: rest =>
    c.isDigit &&
      (k (some c) rest ||
        (match rest with
         | [] => false
         | s :: rest2 => (isPySpace s || s = '-') && k (some s) rest2))

/-- Exactly `n` code-token groups. -/
def grpExact : Nat → M → M
  | 0, k => k
  | n + 1, k => grp (grpExact n k)

/-- Zero to `n` further code-token groups. -/
def grpUpTo : Nat → M → M
  | 0, k => k
  | n + 1, k => fun prev l => k prev l || grp (grpUpTo n k) prev l

/-- Pattern end: the rest of the input is unconstrained (`re.search`). -/
def endM : M := fun _ _ => true

/-- Try the matcher at every start position (`re.search` existence). -/
def scanM (m : M) : Option Char → List Char → Bool
  | prev, [] => m prev []
  | prev, c :: rest => m prev (c :: rest) || scanM m (some c) rest

/-- Alternatives of the first keyword pattern, optional groups expanded. -/
def alts1 : List String :=
  ["otp", "o.t.p", "2fa",
   "two-factor", "two factor", "twofactor",
   "multi-factor", "multi factor", "multifactor", "mfa",
   "verification code", "security code", "auth code", "authentication code",
   "one-time pass", "one-time password", "one-time code",
   "one time pass", "one time password", "one time code",
   "onetime pass", "onetime password", "onetime code",
   "passcode"]

/-- Issuer names of the second keyword pattern (`g-?code` expanded). -/
def issuers2 : List String :=
  ["google", "gcode", "g-code", "intuit", "bank", "chase", "wells fargo",
   "bank of america", "citi", "capital one", "paypal", "venmo"]

/-- Code words of the second keyword pattern. -/
def codeWords2 : List String := ["code", "otp", "passcode", "verification"]

/-- Code words of the third and fourth keyword patterns. -/
def codeWords3 : List String := ["code", "otp", "passcode", "verification code"]

/-- Security-context words of the secondary heuristic. -/
def ctxWords : List String :=
  ["verify", "verification", "security", "login", "signin", "sign in",
   "auth", "account", "bank", "google", "intuit"]

/-- `SENSITIVE_KEYWORD_PATTERNS[0]`. -/
def pat1 : M := bnd (altM alts1 (bnd endM))

/-- `SENSITIVE_KEYWORD_PATTERNS[1]`. -/
def pat2 : M := bnd (altM issuers2 (bnd (gapLe 80 (bnd (altM codeWords2 (bnd endM))))))

/-- `SENSITIVE_KEYWORD_PATTERNS[2]`. -/
def pat3 : M :=
  bnd (altM codeWords3 (bnd (gapLe 30 (bnd (digitsExact 4 (digitsUpTo 4 (bnd endM)))))))

/-- `SENSITIVE_KEYWORD_PATTERNS[3]`. -/
def pat4 : M :=
  bnd (digitsExact 4 (digitsUpTo 4 (bnd (gapLe 30 (bnd (altM codeWords3 (bnd endM)))))))

/-- `CODE_TOKEN_PATTERN`. -/
def codeTokenPat : M := bnd (grpExact 4 (grpUpTo 4 (bnd endM)))

/-- The inline security-context regex of `is_sensitive_message`. -/
def ctxPat : M := bnd (altM ctxWords (bnd endM))

/-- Python `sep.join(parts)`. -/
def pyJoin (sep : String) : List String → String
  | [] => ""
  | [p] => p
  | p :: q :: ps => p ++ sep ++ pyJoin sep (q :: ps)

/-- The combined `sender + contact_number + body` search string of
`is_sensitive_message` (empty parts dropped before joining). -/
def sensitiveCombined (text sender contact_number : Val) : String :=
  let body := pyStr (pyOr text (.str ""))
  pyJoin " "
    (([pyStr (pyOr sender (.str "")), pyStr (pyOr contact_number (.str "")), body]).filter
      (fun p => p != ""))

/-- `is_sensitive_message`: keyword patterns on the combined string, or a code
token in the body together with a security-context word in the combined
string. -/
def is_sensitive_message (text sender contact_number : Val) : Bool :=
  let body := pyStr (pyOr text (.str ""))
  if (pyStrip body).isEmpty then false
  else
    let combined := sensitiveCombined text sender contact_number
    ([pat1, pat2, pat3, pat4].any (fun p => scanM p none combined.data))
      || (scanM codeTokenPat none body.data && scanM ctxPat none combined.data)

/-! ## HMAC-SHA256 signature verification (`webhook_server.py` 363-417).
`hashlib.sha256` / `hmac.new(..., hashlib.sha256)` are implemented concretely
(FIPS 180-4), on byte lists with 32-bit words as `Nat` reduced mod `2^32`. -/

/-- Truncate to a 32-bit word. -/
def w32 (x : Nat) : Nat := x % 4294967296

/-- 32-bit rotate right. -/
def rotr32 (x n : Nat) : Nat := w32 ((x >>> n) ||| (x <<< (32 - n)))

def bigS0 (x : Nat) : Nat := rotr32 x 2 ^^^ rotr32 x 13 ^^^ rotr32 x 22

def bigS1 (x : Nat) : Nat := rotr32 x 6 ^^^ rotr32 x 11 ^^^ rotr32 x 25

def smallS0 (x : Nat) : Nat := rotr32 x 7 ^^^ rotr32 x 18 ^^^ (x >>> 3)

def smallS1 (x : Nat) : Nat := rotr32 x 17 ^^^ rotr32 x 19 ^^^ (x >>> 10)

def chF (x y z : Nat) : Nat := (x &&& y) ^^^ ((x ^^^ 4294967295) &&& z)

def majF (x y z : Nat) : Nat := (x &&& y) ^^^ (x &&& z) ^^^ (y &&& z)

/-- The SHA-256 round constants. -/
def K64 : List Nat :=
  [1116352408, 1899447441, 3049323471, 3921009573, 961987163, 1508970993,
   2453635748, 2870763221, 3624381080, 310598401, 607225278, 1426881987,
   1925078388, 2162078206, 2614888103, 3248222580, 3835390401, 4022224774,
   264347078, 604807628, 770255983, 1249150122, 1555081692, 1996064986,
   2554220882, 2821834349, 2952996808, 3210313671, 3336571891, 3584528711,
   113926993, 338241895, 666307205, 773529912, 1294757372, 1396182291,
   1695183700, 1986661051, 2177026350, 2456956037, 2730485921, 2820302411,
   3259730800, 3345764771, 3516065817, 3600352804, 4094571909, 275423344,
   430227734, 506948616, 659060556, 883997877, 958139571, 1322822218,
   1537002063, 1747873779, 1955562222, 2024104815, 2227730452, 2361852424,
   2428436474, 2756734187, 3204031479, 3329325298]

/-- The SHA-256 initial hash value. -/
def sha256H0 : List Nat :=
  [1779033703, 3144134277, 1013904242, 2773480762,
   1359893119, 2600822924, 528734635, 1541459225]

/-- `n`-byte big-endian encoding. -/
def toBytesBE : Nat → Nat → List Nat
  | 0, _ => []
  | m + 1, x => toBytesBE m (x >>> 8) ++ [x % 256]

/-- Big-endian bytes of one 32-bit word. -/
def word32Bytes (x : Nat) : List Nat :=
  [(x >>> 24) % 256, (x >>> 16) % 256, (x >>> 8) % 256, x % 256]

/-- SHA-256 padding: `0x80`, zeros to 56 mod 64, 8-byte bit length. -/
def sha256Pad (msg : List Nat) : List Nat :=
  let r := (msg.length + 1) % 64
  msg ++ [128] ++ List.replicate ((64 + 56 - r) % 64) 0 ++ toBytesBE 8 (msg.length * 8)

/-- Split into 64-byte blocks (fuelled so that the recursion is structural
and kernel-reducible; the fuel `l.length` always suffices since every step
consumes at least one element). -/
def chunk64Go : Nat → List Nat → List (List Nat)
  | 0, _ => []
  | _, [] => []
  | fuel + 1, l => l.take 64 :: chunk64Go fuel (l.drop 64)

/-- Split into 64-byte blocks. -/
def chunk64 (l : List Nat) : List (List Nat) := chunk64Go l.length l

/-- Big-endian 32-bit words of a block. -/
def toWords : List Nat → List Nat
  | b0 :: b1 :: b2 :: b3 :: rest =>
    (((b0 * 256 + b1) * 256 + b2) * 256 + b3) :: toWords rest
  | _ => []

/-- One message-schedule extension step. -/
def schedStep (w : List Nat) : List Nat :=
  w ++ [w32 (smallS1 (w.getD (w.length - 2) 0) + w.getD (w.length - 7) 0
    + smallS0 (w.getD (w.length - 15) 0) + w.getD (w.length - 16) 0)]

/-- Extend 16 words to the 64-entry message schedule. -/
def schedule (w : List Nat) : List Nat :=
  (List.range 48).foldl (fun acc _ => schedStep acc) w

/-- One compression round on the working variables `[a,b,c,d,e,f,g,h]`. -/
def roundStep (st : List Nat) (kw : Nat × Nat) : List Nat :=
  let a := st.getD 0 0
  let b := st.getD 1 0
  let c := st.getD 2 0
  let d := st.getD 3 0
  let e := st.getD 4 0
  let f := st.getD 5 0
  let g := st.getD 6 0
  let h := st.getD 7 0
  let t1 := w32 (h + bigS1 e + chF e f g + kw.1 + kw.2)
  let t2 := w32 (bigS0 a + majF a b c)
  [w32 (t1 + t2), a, b, c, w32 (d + t1), e, f, g]

/-- SHA-256 block compression. -/
def compress (hs : List Nat) (block : List Nat) : List Nat :=
  let st := (K64.zip (schedule (toWords block))).foldl roundStep hs
  [w32 (hs.getD 0 0 + st.getD 0 0), w32 (hs.getD 1 0 + st.getD 1 0),
   w32 (hs.getD 2 0 + st.getD 2 0), w32 (hs.getD 3 0 + st.getD 3 0),
   w32 (hs.getD 4 0 + st.getD 4 0), w32 (hs.getD 5 0 + st.getD 5 0),
   w32 (hs.getD 6 0 + st.getD 6 0), w32 (hs.getD 7 0 + st.getD 7 0)]

/-- SHA-256 digest (32 bytes) of a byte list. -/
def sha256 (msg : List Nat) : List Nat :=
  (((chunk64 (sha256Pad msg)).foldl compress sha256H0).map word32Bytes).flatten

/-- HMAC-SHA256 (RFC 2104) of a message under a key, as 32 digest bytes. -/
def hmacSha256 (key msg : List Nat) : List Nat :=
  let k0 := if key.length > 64 then sha256 key else key
  let kp := k0 ++ List.replicate (64 - k0.length) 0
  sha256 ((kp.map (fun b => b ^^^ 92)) ++ sha256 ((kp.map (fun b => b ^^^ 54)) ++ msg))

def hexDigitChars : List Char := ['0', '1', '2', '3', '4', '5', '6', '7']

def hexChars : List Char :=
  hexDigitChars ++ ['8', '9', 'a', 'b', 'c', 'd', 'e', 'f']

/-- Two lowercase hex characters of one byte. -/
def byteHex (b : Nat) : List Char :=
  [hexChars.getD (b / 16 % 16) '0', hexChars.getD (b % 16) '0']

/-- `.hexdigest()`: lowercase hex characters of a byte list. -/
def hexdigest : List Nat → List Char
  | [] => []
  | b :: bs => byteHex b ++ hexdigest bs

/-- UTF-8 encoding of one character. -/
def charUtf8 (c : Char) : List Nat :=
  let n := c.toNat
  if n < 128 then [n]
  else if n < 2048 then [192 + n / 64, 128 + n % 64]
  else if n < 65536 then [224 + n / 4096, 128 + (n / 64) % 64, 128 + n % 64]
  else [240 + n / 262144, 128 + (n / 4096) % 64, 128 + (n / 64) % 64, 128 + n % 64]

/-- `str.encode("utf-8")`. -/
def utf8Encode (s : String) : List Nat := (s.data.map charUtf8).flatten

/-- `hmac.new(secret.encode("utf-8"), raw_body, hashlib.sha256).hexdigest()`. -/
def hmacHexdigest (secret : String) (raw_body : List Nat) : List Char :=
  hexdigest (hmacSha256 (utf8Encode secret) raw_body)

/-- `_get_header`: exact lookup, then case-insensitive fallback (also when the
exact value is falsy). -/
def getHeader (headers : List (String × String)) (name : String) : Option String :=
  let fallback :=
    (headers.find? (fun p => pyLower p.1 == pyLower name)).map (fun p => p.2)
  match (headers.find? (fun p => p.1 == name)).map (fun p => p.2) with
  | some v => if v != "" then some v else fallback
  | none => fallback

/-- Split on a character (Python `str.split(c)`). -/
def splitOnChar (c : Char) (l : List Char) : List (List Char) :=
  l.foldr (fun x acc => if x = c then [] :: acc else (x :: acc.headD []) :: acc.tail) [[]]

/-- Everything after the first occurrence of `c` (Python `split(c, 1)[1]`). -/
def afterFirst (c : Char) (l : List Char) : List Char :=
  (l.dropWhile (fun x => x != c)).drop 1

/-- Strip the `sha256=` / `v1:` style tag: keep what follows the first `=`
(or, failing that, the first `:`), re-stripped. -/
def dePrefix (piece : List Char) : List Char :=
  if piece.contains '=' then pyStripL (afterFirst '=' piece)
  else if piece.contains ':' then pyStripL (afterFirst ':' piece)
  else piece

/-- One `parse_signature_candidates` loop iteration: strip, de-prefix on `=`
or `:`, lowercase, keep 64-character lowercase-hex pieces. -/
def candidateOf (part : List Char) : Option (List Char) :=
  let piece := pyStripL part
  if piece = [] then none
  else
    let done := (dePrefix piece).map Char.toLower
    if done.length = 64 ∧ ∀ ch ∈ done, ch ∈ hexChars then some done else none

/-- `parse_signature_candidates`. -/
def parse_signature_candidates (header_value : Option String) : List (List Char) :=
  match header_value with
  | none => []
  | some s => if s = "" then [] else (splitOnChar ',' s.data).filterMap candidateOf

/-- `verify_hmac_signature`: any provided candidate equal to the expected
digest of the raw body authenticates (`hmac.compare_digest` is constant-time
equality). -/
def verify_hmac_signature (raw_body : List Nat) (headers : List (String × String))
    (secret : String) : Bool :=
  if secret = "" then true
  else
    let provided :=
      parse_signature_candidates (getHeader headers "X-Dialpad-Signature")
        ++ parse_signature_candidates (getHeader headers "X-Dialpad-Signature-SHA256")
    if provided.isEmpty then false
    else
      let expected := hmacHexdigest secret raw_body
      provided.any (fun c => c == expected)

/-! ## The `/webhook/dialpad` handler (`webhook_server.py` 675-772).
External effects are oracle parameters: `authOk` is the outcome of
`verify_webhook_auth` (the HMAC half of which is verified above), `parsed`
the `json.loads` result (`none` = `JSONDecodeError`), `store` the
`handle_sms_webhook` collaborator call (`Except.error` = raised exception;
the storage engine itself lives outside this repository and is consumed
through its `store(event) -> dict` contract), `contactLookup` the
`get_contact_name` network lookup (never raises), and `hookResult` the
`send_sms_to_openclaw_hooks` outcome (never raises; `(False, "token_missing")`
when the token is unset, `(False, "http_NNN")` / `(False, "request_failed")`
on failure).  A `.error` overall result models a Python exception escaping
the handler, in which case no HTTP response is written. -/

/-- An HTTP response: `send_error` or a 200 with a JSON body. -/
inductive HttpResponse where
  | err (code : Nat) (msg : String)
  | ok (code : Nat) (body : List (String × Val))

/-- Python `v == "some string"` (false for non-strings). -/
def valEqStr (v : Val) (s : String) : Bool :=
  match v with
  | .str t => t == s
  | _ => false

/-- Contact-name resolution in the handler: the lookup result, else a cached
`contact_name` from the store result's `message` record (an exception when
`message` is truthy but not a dict). -/
def contactInfoOf (result : Obj) (contactLookup : Option String) : Except String Val :=
  let ci0 : Val := match contactLookup with | some s => .str s | none => .null
  if truthy ci0 then .ok ci0
  else if truthy (getVD result "message" .null) then
    match getVD result "message" .null with
    | .dict kvs =>
      let cached := getVD kvs "contact_name" (.str "")
      if truthy cached && !(valEqStr cached "Unknown") then .ok cached else .ok ci0
    | _ => .error "AttributeError: store message is not a dict"
  else .ok ci0

/-- The hook-forwarding section for an inbound payload: classification and
sensitivity filters short-circuit; otherwise the payload is normalised (an
exception when the `contact` field is truthy but not a dict) and forwarded,
yielding the oracle's `(sent, status)`. -/
def hookOutcome (data : Obj) (ci : Val) (text : String) (from_num : Val)
    (hookResult : Bool × String) : Except String (Bool × String) :=
  let nt := classify_inbound_notification data
  if nt = "missed_call" then .ok (false, "filtered_missed_call")
  else if nt = "blank_sms" then .ok (false, "filtered_blank_sms")
  else if is_sensitive_message (.str text) (pyOr ci (.str "")) from_num then
    .ok (false, "filtered_sensitive")
  else
    match normalize_sms_payload data ci with
    | none => .error "AttributeError: contact field is not a dict"
    | some _ => .ok hookResult

/-- The JSON status body of the 200 response. -/
def respBody (hook : Option (Bool × String)) : List (String × Val) :=
  [("status", .str "ok"), ("stored", .bool true),
   ("hook_forwarded", match hook with | some p => .bool p.1 | none => .null),
   ("hook_status", match hook with | some p => .str p.2 | none => .null)]

/-- The handler's post-storage section: direction check, hook forwarding,
and the (always-200) response. -/
def handle_webhook_stored (data result : Obj) (contactLookup : Option String)
    (hookResult : Bool × String) : Except String HttpResponse :=
  if pyLower (pyStr (getVD data "direction" (.str "unknown"))) = "inbound" then
    match contactInfoOf result contactLookup with
    | .error e => .error e
    | .ok ci =>
      match hookOutcome data ci (extract_message_text data)
          (pyOr (first_value (getVD data "from_number" .null)) (.str "N/A")) hookResult with
      | .error e => .error e
      | .ok hk => .ok (.ok 200 (respBody (some hk)))
  else .ok (.ok 200 (respBody none))

/-- `DialpadWebhookHandler.handle_webhook`. -/
def handle_webhook (authOk : Bool) (parsed : Option Obj) (store : Except String Obj)
    (contactLookup : Option String) (hookResult : Bool × String) :
    Except String HttpResponse :=
  if ¬ authOk then .ok (.err 401 "Unauthorized")
  else
    match parsed with
    | none => .ok (.err 400 "Invalid JSON")
    | some data =>
      match store with
      | .error e => .ok (.err 500 ("Storage error: " ++ e))
      | .ok result =>
        if ¬ truthy (getVD result "stored" (.bool false)) then .ok (.err 500 "Storage failed")
        else handle_webhook_stored data result contactLookup hookResult

/-! ## The voicemail poller (`scripts/poll_voicemails.py` 109-369).
Telegram delivery and the wall clock are oracles: `send` maps a built message
to its delivery outcome, `tsOf` supplies the `datetime.now(...)` timestamp
recorded by `mark_seen`.  The line-name configuration is a parameter.
`build_notification` returns `Except` because `(call.get("contact") or
\x7b\x7d).get("name")` raises on a truthy non-dict `contact` value; a raised
exception aborts the whole run (caught by the outer `try`). -/

/-- One `str.replace(ch, "\\" + ch)` pass for a single-character pattern. -/
def escapeChar (ch : Char) : List Char → List Char
  | [] => []
  | c :: cs => (if c = ch then ['\\', ch] else [c]) ++ escapeChar ch cs

/-- `escape_markdown`: backslash-escape `_`, `*`, backquote and `[`
(successive single-character `str.replace` passes). -/
def escape_markdown (text : String) : String :=
  String.mk (escapeChar '[' (escapeChar '`' (escapeChar '*' (escapeChar '_' text.data))))

/-- `format_phone_number` (poller copy): `(NXX) NXX-XXXX` for 10 digits. -/
def format_phone_number (phone_number : Val) : Option String :=
  match poll_normalize_phone_number phone_number with
  | none => none
  | some n =>
    if n.length = 10 then
      some ("(" ++ n.take 3 ++ ") " ++ (n.drop 3).take 3 ++ "-" ++ n.drop 6)
    else some n

/-- `get_line_name` (poller copy), over an explicit line-name map. -/
def get_line_name (lineNames : List (String × String)) (to_number : Val) : Option String :=
  match poll_normalize_phone_number to_number with
  | none => none
  | some normalized =>
    let formatted := (format_phone_number (.str normalized)).getD normalized
    match (lineNames.find? (fun p => p.1 == normalized)).map (fun p => p.2) with
    | some friendly => some (friendly ++ " " ++ formatted)
    | none => some formatted

/-- `looks_like_phone`. -/
def looks_like_phone (value : Val) : Bool :=
  match poll_normalize_phone_number value with
  | none => false
  | some _ => ((pyStr value).data.filter Char.isDigit).length ≥ 7

/-- `clean_contact_name`: drop blank names and names that are just the
caller's own number. -/
def clean_contact_name (name : Val) (from_num : Val) : Option String :=
  if ¬ truthy name then none
  else
    let candidate := pyStrip (pyStr name)
    if candidate = "" then none
    else if looks_like_phone (.str candidate) then
      if poll_normalize_phone_number (.str candidate) = poll_normalize_phone_number from_num
      then none
      else some candidate
    else some candidate

/-- Python `float()` of an arbitrary value (`bool` counts as `int`);
`none` models a raised `TypeError`/`ValueError`. -/
def pyFloatOfVal : Val → Option Frac
  | .int n => some ⟨n, 1⟩
  | .bool b => some ⟨if b then 1 else 0, 1⟩
  | .str s => pyFloat (pyStrip s)
  | _ => none

/-- `format_duration`: milliseconds to a rounded, clamped `"<n>s"`. -/
def format_duration (call : Obj) : String :=
  match getV call "total_duration" with
  | none => "0s"
  | some .null => "0s"
  | some v =>
    let seconds : Int :=
      match pyFloatOfVal v with
      | none => 0
      | some q => pyRound ⟨q.num, q.den * 1000⟩
    let seconds := if seconds < 0 then 0 else seconds
    toString seconds ++ "s"

/-- `has_voicemail`: a non-blank `voicemail_link` or recording id. -/
def has_voicemail (call : Obj) : Bool :=
  let link := pyStrip (pyStr (pyOr (getVD call "voicemail_link" .null) (.str "")))
  let recording_id :=
    pyStrip (pyStr (pyOr (getVD call "voicemail_recording_id" .null) (.str "")))
  link != "" || recording_id != ""

/-- `is_within_lookback`: `date_ended` parses and lies in the window. -/
def is_within_lookback (call : Obj) (lookback_ms now_ms : Int) : Bool :=
  match pyFloatOfVal (.str (pyStr (getVD call "date_ended" .null))) with
  | none => false
  | some q =>
    let ended_ms := fracTrunc q
    decide ((now_ms - lookback_ms) ≤ ended_ms ∧ ended_ms ≤ now_ms)

/-- `build_notification`: the Telegram message for one voicemail call. -/
def build_notification (lineNames : List (String × String)) (call : Obj) :
    Except String String :=
  let from_num := pyStr (pyOr (getVD call "external_number" .null) (.str "Unknown"))
  let to_num := getVD call "internal_number" .null
  let to_display :=
    match get_line_name lineNames to_num with
    | some d => d
    | none => pyStr (pyOr to_num (.str "Unknown"))
  match (match pyOr (getVD call "contact" .null) (.dict []) with
         | .dict kvs => Except.ok (getVD kvs "name" .null)
         | _ => Except.error "AttributeError: contact is not a dict") with
  | .error e => .error e
  | .ok nameVal =>
    let contact_name := clean_contact_name nameVal (.str from_num)
    let from_display :=
      match contact_name with
      | some cn => "*" ++ escape_markdown cn ++ "* (`" ++ escape_markdown from_num ++ "`)"
      | none => "`" ++ escape_markdown from_num ++ "`"
    let text := "📬 *New Voicemail*\n"
      ++ "*To:* " ++ escape_markdown to_display ++ "\n"
      ++ "*From:* " ++ from_display ++ "\n"
      ++ "*Duration:* " ++ format_duration call
    let transcription := pyStrip (pyStr (pyOr (getVD call "transcription_text" .null) (.str "")))
    if transcription != "" then
      .ok (text ++ "\n\n" ++ "*Transcription:*\n" ++ "_\"" ++ escape_markdown transcription ++ "\"_")
    else .ok text

/-- The per-voicemail loop of `main` (lines 358-369): skip blank ids and
already-seen ids; send, and `mark_seen` only on a successful send.  Returns
the final ledger, the list of `(call_id, message)` pairs for which a Telegram
send was attempted, and the notified count; a raised exception aborts the
remainder of the run. -/
def pollLoop (send : String → Bool) (tsOf : Obj → String)
    (lineNames : List (String × String)) :
    Ledger → List Obj → Ledger × List (String × String) × Nat
  | db, [] => (db, [], 0)
  | db, call :: rest =>
    let call_id := pyStrip (pyStr (pyOr (getVD call "call_id" .null) (.str "")))
    if call_id = "" then pollLoop send tsOf lineNames db rest
    else if has_seen db call_id then pollLoop send tsOf lineNames db rest
    else
      match build_notification lineNames call with
      | .error _ => (db, [], 0)
      | .ok message =>
        if send message then
          let r := pollLoop send tsOf lineNames (mark_seen db call_id (tsOf call)) rest
          (r.1, (call_id, message) :: r.2.1, r.2.2 + 1)
        else
          let r := pollLoop send tsOf lineNames db rest
          (r.1, (call_id, message) :: r.2.1, r.2.2)

/-- One poller run: filter the fetched calls down to in-window voicemails
(non-dicts are dropped, as by the `isinstance` check) and process them. -/
def poll_run (send : String → Bool) (tsOf : Obj → String)
    (lineNames : List (String × String)) (db : Ledger) (calls : List Val)
    (lookback_ms now_ms : Int) : Ledger × List (String × String) × Nat :=
  pollLoop send tsOf lineNames db
    (calls.filterMap (fun v =>
      match v with
      | .dict kvs =>
        if has_voicemail kvs && is_within_lookback kvs lookback_ms now_ms
        then some kvs else none
      | _ => none))

/-! ## Theorems -/

/-- The poller's copy of `normalize_phone_number` is the same function. -/
theorem poll_normalize_phone_number_eq :
    poll_normalize_phone_number = normalize_phone_number := rfl

theorem npnCore_shape (t s : String) (h : npnCore t = some s) :
    s.data ≠ [] ∧ (∀ c ∈ s.data, c.isDigit) ∧ s.data.length ≤ 10 := by
  unfold npnCore at h
  set digits0 := t.data.filter Char.isDigit with hd0
  by_cases hz : digits0 = []
  · rw [if_pos hz] at h
    exact absurd h (by simp)
  · rw [if_neg hz] at h
    have hall0 : ∀ c ∈ digits0, c.isDigit := fun c hc => List.of_mem_filter hc
    set digits1 := if digits0.length = 11 ∧ digits0.head? = some '1'
        then digits0.tail else digits0 with hd1
    have hall1 : ∀ c ∈ digits1, c.isDigit := by
      intro c hc
      rw [hd1] at hc
      split at hc
      · exact hall0 c (List.mem_of_mem_tail hc)
      · exact hall0 c hc
    have hne1 : digits1 ≠ [] ∨ digits1.length ≥ 10 := by
      rw [hd1]
      split
      · rename_i hcond
        right
        rw [List.length_tail, hcond.1]
      · exact Or.inl hz
    by_cases hlen : digits1.length ≥ 10
    · rw [if_pos hlen, Option.some_inj] at h
      have hdata : s.data = digits1.drop (digits1.length - 10) := by rw [← h]
      have hdl : s.data.length = 10 := by
        rw [hdata, List.length_drop]
        omega
      refine ⟨?_, ?_, by omega⟩
      · intro hnil
        rw [hnil] at hdl
        simp at hdl
      · intro c hc
        rw [hdata] at hc
        exact hall1 c (List.mem_of_mem_drop hc)
    · rw [if_neg hlen, Option.some_inj] at h
      have hdata : s.data = digits1 := by rw [← h]
      rw [hdata]
      exact ⟨hne1.resolve_right hlen, hall1, by omega⟩

theorem npnCore_of_digits (s : String) (hne : s.data ≠ [])
    (hall : ∀ c ∈ s.data, c.isDigit) (hlen : s.data.length ≤ 10) :
    npnCore s = some s := by
  have hfilter : s.data.filter Char.isDigit = s.data :=
    List.filter_eq_self.mpr hall
  unfold npnCore
  simp only [hfilter]
  rw [if_neg hne]
  have h11 : ¬ (s.data.length = 11 ∧ s.data.head? = some '1') := by
    rintro ⟨h1, -⟩
    omega
  rw [if_neg h11]
  by_cases hge : s.data.length ≥ 10
  · rw [if_pos hge]
    have h0 : s.data.length - 10 = 0 := by omega
    rw [h0, List.drop_zero]
  · rw [if_neg hge]

/-- C10: `normalize_phone_number` is idempotent on non-null outputs, and every
non-null output is a non-empty all-digit string of at most 10 characters; this
holds for both the webhook server's copy and the poller's copy. -/
theorem normalize_phone_number_idempotent (v : Val) (s : String)
    (h : normalize_phone_number v = some s ∨ poll_normalize_phone_number v = some s) :
    normalize_phone_number (.str s) = some s
      ∧ poll_normalize_phone_number (.str s) = some s
      ∧ s ≠ "" ∧ s.length ≤ 10 ∧ ∀ c ∈ s.data, c.isDigit := by
  rw [poll_normalize_phone_number_eq] at h ⊢
  replace h : normalize_phone_number v = some s := by
    rcases h with h | h <;> exact h
  unfold normalize_phone_number at h
  by_cases hv : truthy v
  · rw [if_neg (by simp [hv])] at h
    obtain ⟨hne, hall, hlen⟩ := npnCore_shape (pyStr v) s h
    have hs : s ≠ "" := by
      intro hcon
      subst hcon
      exact hne rfl
    have hcore := npnCore_of_digits s hne hall hlen
    have hidem : normalize_phone_number (.str s) = some s := by
      unfold normalize_phone_number
      rw [if_neg (by simp [truthy, hs])]
      exact hcore
    exact ⟨hidem, hidem, hs, hlen, hall⟩
  · rw [if_pos (by simp [hv])] at h
    exact absurd h (by simp)

/-- Witness for C10 at a concrete phone number. -/
theorem normalize_phone_number_idempotent_witness :
    normalize_phone_number (.str "4155550123") = some "4155550123"
      ∧ poll_normalize_phone_number (.str "4155550123") = some "4155550123"
      ∧ "4155550123" ≠ "" ∧ "4155550123".length ≤ 10
      ∧ ∀ c ∈ "4155550123".data, c.isDigit :=
  normalize_phone_number_idempotent (.str "+1 (415) 555-0123") "4155550123"
    (Or.inl (by decide))

theorem has_seen_mark_seen (db : Ledger) (id t : String) :
    has_seen (mark_seen db id t) id = true := by
  unfold mark_seen
  by_cases h : has_seen db id
  · rw [if_pos h]
    exact h
  · rw [if_neg h]
    unfold has_seen
    simp [List.any_append]

theorem mark_seen_already (db : Ledger) (id t : String) (h : has_seen db id = true) :
    mark_seen db id t = db := by
  unfold mark_seen
  rw [if_pos h]

theorem ledger_filter_eq_count (db : Ledger) (id : String) :
    (db.filter (fun r => r.1 == id)).length = (db.map Prod.fst).count id := by
  induction db with
  | nil => rfl
  | cons r rest ih =>
    by_cases h : r.1 = id
    · simp [List.count_cons, h, ih]
    · simp only [List.filter_cons, List.count_cons, List.map_cons]
      rw [if_neg (by simpa using h)]
      rw [ih]
      have hbe : (id == r.1) = false := by
        simpa using fun hc => h hc.symm
      simp [hbe, h]

/-- C2: `mark_seen` called twice with the same identifier leaves exactly one
row with that identifier in the ledger (given the primary-key invariant that
keys are distinct), the second call is a silent no-op, and `has_seen` returns
true after either call. -/
theorem mark_seen_twice_idempotent (db : Ledger) (id t1 t2 : String)
    (hnodup : (db.map Prod.fst).Nodup) :
    ((mark_seen (mark_seen db id t1) id t2).filter (fun r => r.1 == id)).length = 1
      ∧ mark_seen (mark_seen db id t1) id t2 = mark_seen db id t1
      ∧ has_seen (mark_seen db id t1) id = true
      ∧ has_seen (mark_seen (mark_seen db id t1) id t2) id = true := by
  have hseen1 := has_seen_mark_seen db id t1
  have hnoop : mark_seen (mark_seen db id t1) id t2 = mark_seen db id t1 :=
    mark_seen_already _ id t2 hseen1
  refine ⟨?_, hnoop, hseen1, by rw [hnoop]; exact hseen1⟩
  rw [hnoop]
  unfold mark_seen
  by_cases h : has_seen db id
  · rw [if_pos h]
    rw [ledger_filter_eq_count]
    have hle : (db.map Prod.fst).count id ≤ 1 :=
      List.nodup_iff_count_le_one.mp hnodup id
    have hge : 0 < (db.map Prod.fst).count id := by
      unfold has_seen at h
      rw [List.any_eq_true] at h
      obtain ⟨r, hr, hrid⟩ := h
      rw [List.count_pos_iff]
      rw [beq_iff_eq] at hrid
      exact hrid ▸ List.mem_map_of_mem Prod.fst hr
    omega
  · rw [if_neg h]
    rw [List.filter_append]
    have hdb : db.filter (fun r => r.1 == id) = [] := by
      rw [List.filter_eq_nil_iff]
      intro r hr
      unfold has_seen at h
      rw [Bool.not_eq_true, List.any_eq_false] at h
      exact fun hc => absurd hc (by simpa using h r hr)
    rw [hdb]
    simp

/-- C3: classification is `missed_call` exactly when the direction is inbound
(case-insensitively), the extracted message text is blank, an explicit
missed-call signal is present, call context is present, and the sender field
reduces to a non-blank string; negating any conjunct changes the result. -/
theorem classify_missed_call_iff (data : Obj) :
    classify_inbound_notification data = "missed_call" ↔
      (lowerField data "direction" = "inbound"
        ∧ is_blank_text (.str (extract_message_text data)) = true
        ∧ hasMissedSignal data = true
        ∧ hasCallContext data = true
        ∧ is_blank_text (first_value (getVD data "from_number" .null)) = false) := by
  unfold classify_inbound_notification detect_reliable_missed_call_hint detectHintObj
  by_cases h1 : lowerField data "direction" = "inbound"
  · by_cases h2 : is_blank_text (.str (extract_message_text data)) = true
    · by_cases h3 : hasMissedSignal data = true
      · by_cases h4 : hasCallContext data = true
        · by_cases h5 : is_blank_text (first_value (getVD data "from_number" .null)) = true
          · simp [h1, h2, h3, h4, h5]
          · simp only [Bool.not_eq_true] at h5
            simp [h1, h2, h3, h4, h5]
        · simp [h1, h2, h3, h4]
      · simp [h1, h2, h3]
    · simp [h1, h2]
  · simp [h1]

/-- Witness for C3: a concrete payload meeting all five conjuncts classifies
as `missed_call`. -/
theorem classify_missed_call_iff_witness :
    classify_inbound_notification
        [("direction", .str "inbound"), ("from_number", .str "+14155551234"),
         ("text", .str ""), ("event_type", .str "call.missed"),
         ("call_state", .str "missed"), ("call_id", .str "abc123")] = "missed_call" :=
  (classify_missed_call_iff _).mpr (by decide)

/-- Counterexample for C7: with a whitespace-only `text` field the resolution
returns the whitespace, not the empty string, and with an empty `text` field
plus a non-blank `text_content` the normaliser's body text (empty string)
differs from the resolution (`"hello"`). -/
theorem extract_text_counterexample :
    extract_message_text [("text", .str " ")] = " "
      ∧ (" " : String) ≠ ""
      ∧ extract_message_text [("text", .str ""), ("text_content", .str "hello")] = "hello"
      ∧ (normalize_sms_payload [("text", .str ""), ("text_content", .str "hello")] .null).map
          (fun n => n.text) = some (.str "")
      ∧ ("hello" : String) ≠ "" :=
  ⟨rfl, by decide, rfl, rfl, by decide⟩

theorem blank_or_blank (v w : Val) (hv : is_blank_text v = true)
    (hw : is_blank_text w = true) : is_blank_text (pyOr v w) = true := by
  unfold pyOr
  by_cases h : truthy v
  · rw [if_pos h]
    exact hv
  · rw [if_neg h]
    exact hw

theorem strIsEmpty_false (s : String) (h : s ≠ "") : s.isEmpty = false := by
  rw [Bool.eq_false_iff]
  intro hc
  exact h ((String.isEmpty_iff s).mp hc)

theorem is_blank_text_str (s : String) :
    is_blank_text (.str s) = (pyStrip s).isEmpty := by
  unfold is_blank_text pyOr
  by_cases h : truthy (Val.str s)
  · rw [if_pos h]
    rfl
  · rw [if_neg h]
    have hs : s = "" := by
      by_contra hne
      exact h (by simp [truthy, hne])
    rw [hs]
    rfl

/-- C7 (amended): the resolution prefers a non-blank string `text` field, then
a non-blank string `text_content`, and otherwise produces a *blank* string —
blank after trimming, though not necessarily the empty string; the
normaliser's body text follows a different rule (key-presence fallback, no
blankness check) and agrees with the resolution when the `text` field holds a
non-blank string. -/
theorem extract_text_resolution (data : Obj) :
    (is_blank_text (getVD data "text" (.str "")) = true →
      is_blank_text (getVD data "text_content" (.str "")) = true →
      is_blank_text (.str (extract_message_text data)) = true)
    ∧ (∀ t, getVD data "text" (.str "") = .str t → pyStrip t ≠ "" →
        extract_message_text data = t
          ∧ ∀ ci n, normalize_sms_payload data ci = some n → n.text = .str t)
    ∧ (∀ t, is_blank_text (getVD data "text" (.str "")) = true →
        getVD data "text_content" (.str "") = .str t → pyStrip t ≠ "" →
        extract_message_text data = t) := by
  refine ⟨?_, ?_, ?_⟩
  · intro h1 h2
    unfold extract_message_text
    rw [if_neg (by simp [h1]), if_neg (by simp [h2])]
    rw [is_blank_text_str]
    by_cases ha : truthy (getVD data "text" (.str ""))
    · have hx : pyOr (getVD data "text" (.str ""))
          (pyOr (getVD data "text_content" (.str "")) (.str ""))
          = getVD data "text" (.str "") := by
        unfold pyOr
        rw [if_pos ha]
      rw [hx]
      unfold is_blank_text pyOr at h1
      rw [if_pos ha] at h1
      exact h1
    · have hx : pyOr (getVD data "text" (.str ""))
          (pyOr (getVD data "text_content" (.str "")) (.str ""))
          = pyOr (getVD data "text_content" (.str "")) (.str "") := by
        unfold pyOr
        rw [if_neg ha]
      rw [hx]
      by_cases hb : truthy (getVD data "text_content" (.str ""))
      · have hy : pyOr (getVD data "text_content" (.str "")) (.str "")
            = getVD data "text_content" (.str "") := by
          unfold pyOr
          rw [if_pos hb]
        rw [hy]
        unfold is_blank_text pyOr at h2
        rw [if_pos hb] at h2
        exact h2
      · have hy : pyOr (getVD data "text_content" (.str "")) (.str "") = .str "" := by
          unfold pyOr
          rw [if_neg hb]
        rw [hy]
        decide
  · intro t ht hnb
    have htne : t ≠ "" := by
      intro hc
      subst hc
      exact hnb rfl
    have hblankf : is_blank_text (getVD data "text" (.str "")) = false := by
      rw [ht, is_blank_text_str]
      exact strIsEmpty_false _ hnb
    constructor
    · unfold extract_message_text
      rw [if_pos (by simp [hblankf]), ht]
      rfl
    · intro ci n hn
      unfold normalize_sms_payload at hn
      cases hc : contactNameOf data ci with
      | none => rw [hc] at hn; exact absurd hn (by simp)
      | some cn =>
        rw [hc] at hn
        simp only [Option.some.injEq] at hn
        subst hn
        have hget : getVD data "text" (getVD data "text_content" (.str "")) = .str t := by
          unfold getVD at ht ⊢
          cases hx : getV data "text" with
          | none => rw [hx] at ht; simp at ht; simp [ht] at htne
          | some v => rw [hx] at ht; simpa [hx] using ht
        show pyOr (getVD data "text" (getVD data "text_content" (.str ""))) (.str "") = .str t
        rw [hget]
        unfold pyOr
        rw [if_pos (by simp [truthy, htne])]
  · intro t h1 ht hnb
    have htne : t ≠ "" := by
      intro hc
      subst hc
      exact hnb rfl
    have hblankf : is_blank_text (getVD data "text_content" (.str "")) = false := by
      rw [ht, is_blank_text_str]
      exact strIsEmpty_false _ hnb
    unfold extract_message_text
    rw [if_neg (by simp [h1]), if_pos (by simp [hblankf]), ht]
    rfl

/-- Witness for C7 (amended) at concrete payloads. -/
theorem extract_text_resolution_witness :
    is_blank_text (.str (extract_message_text [("text", .str "  ")])) = true
      ∧ extract_message_text [("text", .str "hi!")] = "hi!"
      ∧ (normalize_sms_payload [("text", .str "hi!")] .null).map (fun n => n.text)
          = some (.str "hi!")
      ∧ extract_message_text [("text", .str " "), ("text_content", .str "body")] = "body" := by
  have h1 := (extract_text_resolution [("text", .str "  ")]).1 (by decide) (by decide)
  have h2 := (extract_text_resolution [("text", .str "hi!")]).2.1 "hi!" rfl (by decide)
  have h3 := (extract_text_resolution
      [("text", .str " "), ("text_content", .str "body")]).2.2 "body"
      (by decide) rfl (by decide)
  refine ⟨h1, h2.1, ?_, h3⟩
  cases hx : normalize_sms_payload [("text", .str "hi!")] .null with
  | none =>
    have : (normalize_sms_payload [("text", .str "hi!")] .null).isSome = true := rfl
    rw [hx] at this
    exact absurd this (by simp)
  | some n => simp [h2.2 .null n hx]

/-- Counterexample for C8: a single-element-list `from_number` is *not*
reduced to a scalar by the normaliser — `sender_number` stays the raw list. -/
theorem normalize_sender_counterexample :
    (normalize_sms_payload [("from_number", .list [.str "+14155550111"])] .null).map
        (fun n => n.sender_number) = some (.list [.str "+14155550111"])
      ∧ Val.list [.str "+14155550111"] ≠ Val.str "+14155550111" :=
  ⟨rfl, fun h => Val.noConfusion h⟩

/-- C8 (amended): the normaliser reduces only the recipient field to a scalar
(first element of a list, `null` for a null/empty list, passthrough for
scalars); the sender field is passed through unchanged. -/
theorem normalize_field_reduction (data : Obj) (ci : Val) (n : NormalizedSMS)
    (h : normalize_sms_payload data ci = some n) :
    n.sender_number = getVD data "from_number" .null
      ∧ n.recipient_number =
          (match getVD data "to_number" .null with
            | .list [] => .null
            | .list (x :: _) => x
            | v => v) := by
  unfold normalize_sms_payload at h
  cases hc : contactNameOf data ci with
  | none => rw [hc] at h; exact absurd h (by simp)
  | some cn =>
    rw [hc] at h
    simp only [Option.some.injEq] at h
    subst h
    refine ⟨rfl, ?_⟩
    show firstValueU (getVD data "to_number" .null) = _
    unfold firstValueU
    cases getVD data "to_number" .null with
    | list xs => cases xs <;> rfl
    | null => rfl
    | bool b => rfl
    | int m => rfl
    | str s => rfl
    | dict kvs => rfl

/-- Witness for C8 (amended) at a concrete payload. -/
theorem normalize_field_reduction_witness :
    ∃ n, normalize_sms_payload
        [("from_number", .str "+14155550123"), ("to_number", .list [.str "+14155559876"])]
        .null = some n
      ∧ n.sender_number = .str "+14155550123"
      ∧ n.recipient_number = .str "+14155559876" := by
  have hx : normalize_sms_payload
      [("from_number", .str "+14155550123"), ("to_number", .list [.str "+14155559876"])]
      .null = some
        { sender := .str "+14155550123"
          sender_number := .str "+14155550123"
          recipient_number := .str "+14155559876"
          text := .str ""
          timestamp := .null
          conversation_id := .null
          message_id := .null
          direction := .str "unknown" } := rfl
  obtain ⟨hs, hr⟩ := normalize_field_reduction _ _ _ hx
  exact ⟨_, hx, hs.trans rfl, hr.trans rfl⟩

/-- Witness for C2 at a concrete ledger state. -/
theorem mark_seen_twice_idempotent_witness :
    ((mark_seen (mark_seen [("a", "t0")] "b" "t1") "b" "t2").filter
        (fun r => r.1 == "b")).length = 1
      ∧ mark_seen (mark_seen [("a", "t0")] "b" "t1") "b" "t2"
          = mark_seen [("a", "t0")] "b" "t1"
      ∧ has_seen (mark_seen [("a", "t0")] "b" "t1") "b" = true
      ∧ has_seen (mark_seen (mark_seen [("a", "t0")] "b" "t1") "b" "t2") "b" = true :=
  mark_seen_twice_idempotent [("a", "t0")] "b" "t1" "t2" (by decide)

/-! ### Matcher elimination lemmas (for refuting regex matches) -/

theorem bor_elim (a b : Bool) (h : (a || b) = true) : a = true ∨ b = true := by
  simpa using h

theorem band_elim (a b : Bool) (h : (a && b) = true) : a = true ∧ b = true := by
  simpa using h

theorem scanM_exists (m : M) (prev : Option Char) (l : List Char)
    (h : scanM m prev l = true) : ∃ p' l', l' <:+ l ∧ m p' l' = true := by
  induction l generalizing prev with
  | nil => exact ⟨prev, [], List.suffix_refl _, h⟩
  | cons c rest ih =>
    rw [scanM] at h
    rcases bor_elim _ _ h with h1 | h2
    · exact ⟨prev, c :: rest, List.suffix_refl _, h1⟩
    · obtain ⟨p', l', hsuf, hm⟩ := ih _ h2
      exact ⟨p', l', hsuf.trans (List.suffix_cons c rest), hm⟩

theorem bnd_elim (k : M) (p : Option Char) (l : List Char) (h : bnd k p l = true) :
    k p l = true := (band_elim _ _ h).2

theorem altM_elim (ws : List String) (k : M) (p : Option Char) (l : List Char)
    (h : altM ws k p l = true) : ∃ w ∈ ws, litM w.data k p l = true := by
  simpa [altM, List.any_eq_true] using h

theorem litM_elim (w : List Char) (k : M) (p : Option Char) (l : List Char)
    (h : litM w k p l = true) :
    (w.map Char.toLower).isPrefixOf (l.map Char.toLower) = true
      ∧ ∃ p' l', l' <:+ l ∧ k p' l' = true := by
  induction w generalizing p l with
  | nil => exact ⟨by simp [List.isPrefixOf], p, l, List.suffix_refl _, h⟩
  | cons c cs ih =>
    cases l with
    | nil => simp [litM] at h
    | cons x xs =>
      rw [litM] at h
      obtain ⟨heq, hrest⟩ := band_elim _ _ h
      obtain ⟨hpre, p', l', hsuf, hk⟩ := ih _ _ hrest
      refine ⟨?_, p', l', hsuf.trans (List.suffix_cons x xs), hk⟩
      show ((c.toLower :: cs.map Char.toLower).isPrefixOf
        (x.toLower :: xs.map Char.toLower)) = true
      rw [List.isPrefixOf]
      have : c.toLower == x.toLower := by
        rw [beq_iff_eq] at heq ⊢
        exact heq.symm
      simp [this, hpre]

theorem gapLe_elim (n : Nat) (k : M) (p : Option Char) (l : List Char)
    (h : gapLe n k p l = true) : ∃ p' l', l' <:+ l ∧ k p' l' = true := by
  induction n generalizing p l with
  | zero => exact ⟨p, l, List.suffix_refl _, h⟩
  | succ n ih =>
    rw [gapLe] at h
    rcases bor_elim _ _ h with h1 | h2
    · exact ⟨p, l, List.suffix_refl _, h1⟩
    · cases l with
      | nil => simp at h2
      | cons c rest =>
        obtain ⟨-, hg⟩ := band_elim _ _ h2
        obtain ⟨p', l', hsuf, hk⟩ := ih _ _ hg
        exact ⟨p', l', hsuf.trans (List.suffix_cons c rest), hk⟩

/-- Four or more consecutive decimal digits occur in the list. -/
def hasDigitRun4 : List Char → Bool
  | a :: b :: c :: d :: rest =>
    (a.isDigit && b.isDigit && c.isDigit && d.isDigit) || hasDigitRun4 (b :: c :: d :: rest)
  | _ => false

theorem digitsExact_succ_elim (n : Nat) (k : M) (p : Option Char) (l : List Char)
    (h : digitsExact (n + 1) k p l = true) :
    ∃ c rest, l = c :: rest ∧ c.isDigit = true ∧ digitsExact n k (some c) rest = true := by
  cases l with
  | nil => simp [digitsExact] at h
  | cons c rest =>
    rw [digitsExact] at h
    obtain ⟨hd, hrest⟩ := band_elim _ _ h
    exact ⟨c, rest, rfl, hd, hrest⟩

theorem digitsExact4_run (k : M) (p : Option Char) (l : List Char)
    (h : digitsExact 4 k p l = true) : hasDigitRun4 l = true := by
  obtain ⟨a, l1, rfl, ha, h⟩ := digitsExact_succ_elim 3 k p l h
  obtain ⟨b, l2, rfl, hb, h⟩ := digitsExact_succ_elim 2 k _ l1 h
  obtain ⟨c, l3, rfl, hc, h⟩ := digitsExact_succ_elim 1 k _ l2 h
  obtain ⟨d, l4, rfl, hd, -⟩ := digitsExact_succ_elim 0 k _ l3 h
  simp [hasDigitRun4, ha, hb, hc, hd]

theorem hasDigitRun4_cons (x : Char) (l : List Char) (h : hasDigitRun4 l = true) :
    hasDigitRun4 (x :: l) = true := by
  match l with
  | [] => simp [hasDigitRun4] at h
  | [a] => simp [hasDigitRun4] at h
  | [a, b] => simp [hasDigitRun4] at h
  | [a, b, c] => simp [hasDigitRun4] at h
  | a :: b :: c :: d :: rest =>
    rw [hasDigitRun4]
    rw [h]
    simp

theorem hasDigitRun4_suffix (l' l : List Char) (hsuf : l' <:+ l)
    (h : hasDigitRun4 l' = true) : hasDigitRun4 l = true := by
  obtain ⟨pre, rfl⟩ := hsuf
  induction pre with
  | nil => exact h
  | cons x pre ih => exact hasDigitRun4_cons x _ ih

theorem containsSub_of_prefix_suffix (n l' l : List Char)
    (hpre : n.isPrefixOf l' = true) (hsuf : l' <:+ l) : containsSub n l = true := by
  obtain ⟨pre, rfl⟩ := hsuf
  induction pre with
  | nil =>
    cases l' with
    | nil => exact hpre
    | cons c rest =>
      show (n.isPrefixOf (c :: rest) || containsSub n rest) = true
      simp [hpre]
  | cons x pre ih =>
    show (n.isPrefixOf (x :: (pre ++ l')) || containsSub n (pre ++ l')) = true
    simp [ih]

/-- The (lower-cased) word occurs as a substring of the (lower-cased) list. -/
def occursCaseless (w : String) (l : List Char) : Bool :=
  containsSub (w.data.map Char.toLower) (l.map Char.toLower)

theorem occursCaseless_of (w : String) (l' l : List Char)
    (hpre : (w.data.map Char.toLower).isPrefixOf (l'.map Char.toLower) = true)
    (hsuf : l' <:+ l) : occursCaseless w l = true :=
  containsSub_of_prefix_suffix _ _ _ hpre (hsuf.map Char.toLower)

/-- The keyword vocabulary of the filter: every match of a keyword pattern
contains one of these words, and the secondary heuristic requires one. -/
def sensitiveKeywordList : List String := alts1 ++ codeWords2 ++ ctxWords

theorem pat1_refute (l : List Char)
    (hkw : ∀ w ∈ alts1, occursCaseless w l = false) : scanM pat1 none l = false := by
  rw [Bool.eq_false_iff]
  intro htrue
  obtain ⟨p1, l1, hs1, h1⟩ := scanM_exists _ _ _ htrue
  obtain ⟨w, hw, h3⟩ := altM_elim _ _ _ _ (bnd_elim _ _ _ h1)
  obtain ⟨hpre, -⟩ := litM_elim _ _ _ _ h3
  have hocc := occursCaseless_of w l1 l hpre hs1
  rw [hkw w hw] at hocc
  exact absurd hocc (by simp)

theorem pat2_refute (l : List Char)
    (hkw : ∀ w ∈ codeWords2, occursCaseless w l = false) : scanM pat2 none l = false := by
  rw [Bool.eq_false_iff]
  intro htrue
  obtain ⟨p1, l1, hs1, h1⟩ := scanM_exists _ _ _ htrue
  obtain ⟨w0, -, h3⟩ := altM_elim _ _ _ _ (bnd_elim _ _ _ h1)
  obtain ⟨-, p2, l2, hs2, h4⟩ := litM_elim _ _ _ _ h3
  obtain ⟨p3, l3, hs3, h5⟩ := gapLe_elim _ _ _ _ (bnd_elim _ _ _ h4)
  obtain ⟨w, hw, h6⟩ := altM_elim _ _ _ _ (bnd_elim _ _ _ h5)
  obtain ⟨hpre, -⟩ := litM_elim _ _ _ _ h6
  have hocc := occursCaseless_of w l3 l hpre ((hs3.trans hs2).trans hs1)
  rw [hkw w hw] at hocc
  exact absurd hocc (by simp)

theorem pat3_refute (l : List Char)
    (hdr : hasDigitRun4 l = false) : scanM pat3 none l = false := by
  rw [Bool.eq_false_iff]
  intro htrue
  obtain ⟨p1, l1, hs1, h1⟩ := scanM_exists _ _ _ htrue
  obtain ⟨w0, -, h3⟩ := altM_elim _ _ _ _ (bnd_elim _ _ _ h1)
  obtain ⟨-, p2, l2, hs2, h4⟩ := litM_elim _ _ _ _ h3
  obtain ⟨p3, l3, hs3, h5⟩ := gapLe_elim _ _ _ _ (bnd_elim _ _ _ h4)
  have hrun := digitsExact4_run _ _ _ (bnd_elim _ _ _ h5)
  have := hasDigitRun4_suffix l3 l ((hs3.trans hs2).trans hs1) hrun
  rw [hdr] at this
  exact absurd this (by simp)

theorem pat4_refute (l : List Char)
    (hdr : hasDigitRun4 l = false) : scanM pat4 none l = false := by
  rw [Bool.eq_false_iff]
  intro htrue
  obtain ⟨p1, l1, hs1, h1⟩ := scanM_exists _ _ _ htrue
  have hrun := digitsExact4_run _ _ _ (bnd_elim _ _ _ h1)
  have := hasDigitRun4_suffix l1 l hs1 hrun
  rw [hdr] at this
  exact absurd this (by simp)

theorem ctxPat_refute (l : List Char)
    (hkw : ∀ w ∈ ctxWords, occursCaseless w l = false) : scanM ctxPat none l = false := by
  rw [Bool.eq_false_iff]
  intro htrue
  obtain ⟨p1, l1, hs1, h1⟩ := scanM_exists _ _ _ htrue
  obtain ⟨w, hw, h3⟩ := altM_elim _ _ _ _ (bnd_elim _ _ _ h1)
  obtain ⟨hpre, -⟩ := litM_elim _ _ _ _ h3
  have hocc := occursCaseless_of w l1 l hpre hs1
  rw [hkw w hw] at hocc
  exact absurd hocc (by simp)

/-! ### Matcher introduction lemma (a match in a suffix lifts to the whole) -/

/-- The character preceding `ys` when `xs ++ ys` is scanned from `prev`. -/
def lastOpt (xs : List Char) (prev : Option Char) : Option Char :=
  match xs.getLast? with
  | some c => some c
  | none => prev

theorem lastOpt_cons (x : Char) (xs : List Char) (prev : Option Char) :
    lastOpt xs (some x) = lastOpt (x :: xs) prev := by
  cases xs with
  | nil => rfl
  | cons y ys =>
    unfold lastOpt
    rw [List.getLast?_cons_cons]
    cases hy : (y :: ys).getLast? with
    | none => exact absurd hy (by simp)
    | some c => rfl

theorem scanM_append (m : M) (xs : List Char) (prev : Option Char) (ys : List Char)
    (h : scanM m (lastOpt xs prev) ys = true) : scanM m prev (xs ++ ys) = true := by
  induction xs generalizing prev with
  | nil => exact h
  | cons x xs ih =>
    show scanM m prev (x :: (xs ++ ys)) = true
    rw [scanM]
    have := ih (some x) (by rw [lastOpt_cons x xs prev]; exact h)
    rw [this]
    simp

theorem pyJoin_cons_append (p : String) (ps : List String) (b : String) :
    pyJoin " " ((p :: ps) ++ [b]) = pyJoin " " (p :: ps) ++ " " ++ b := by
  induction ps generalizing p with
  | nil => rfl
  | cons q ps ih =>
    show pyJoin " " (p :: q :: (ps ++ [b])) = _
    rw [pyJoin]
    have ihq := ih q
    rw [List.cons_append] at ihq
    rw [ihq]
    rw [show pyJoin " " (p :: q :: ps) = p ++ " " ++ pyJoin " " (q :: ps) from rfl]
    simp only [String.append_assoc]

theorem lastOpt_concat_space (xs : List Char) (prev : Option Char) :
    lastOpt (xs ++ [' ']) prev = some ' ' := by
  unfold lastOpt
  rw [List.getLast?_concat]

/-- The security-context pattern matches the combined search string whenever
the body is `"verification 552013"`, whatever the sender and contact parts
contribute to the front of the string. -/
theorem ctx_combined (sender contact : Val) :
    scanM ctxPat none
      (sensitiveCombined (.str "verification 552013") sender contact).data = true := by
  unfold sensitiveCombined
  show scanM ctxPat none
      (pyJoin " "
        (([pyStr (pyOr sender (.str "")), pyStr (pyOr contact (.str "")),
          pyStr (pyOr (Val.str "verification 552013") (Val.str ""))]).filter
          (fun p => p != ""))).data = true
  have hfil : ([pyStr (pyOr sender (.str "")), pyStr (pyOr contact (.str "")),
        pyStr (pyOr (Val.str "verification 552013") (Val.str ""))].filter (fun p => p != ""))
      = ([pyStr (pyOr sender (.str "")), pyStr (pyOr contact (.str ""))].filter
          (fun p => p != ""))
        ++ [pyStr (pyOr (Val.str "verification 552013") (Val.str ""))] := by
    rw [show [pyStr (pyOr sender (.str "")), pyStr (pyOr contact (.str "")),
          pyStr (pyOr (Val.str "verification 552013") (Val.str ""))]
        = [pyStr (pyOr sender (.str "")), pyStr (pyOr contact (.str ""))]
          ++ [pyStr (pyOr (Val.str "verification 552013") (Val.str ""))] from rfl]
    rw [List.filter_append]
    rfl
  rw [hfil]
  cases hpre : ([pyStr (pyOr sender (.str "")), pyStr (pyOr contact (.str ""))].filter
      (fun p => p != "")) with
  | nil =>
    rw [List.nil_append]
    decide
  | cons p ps =>
    rw [pyJoin_cons_append]
    rw [show pyJoin " " (p :: ps) ++ " " ++ pyStr (pyOr (Val.str "verification 552013") (Val.str ""))
        = (pyJoin " " (p :: ps) ++ " ") ++ pyStr (pyOr (Val.str "verification 552013") (Val.str ""))
        from rfl]
    rw [String.data_append]
    apply scanM_append
    have hlast : lastOpt (pyJoin " " (p :: ps) ++ " ").data none = some ' ' := by
      rw [String.data_append]
      exact lastOpt_concat_space _ _
    rw [hlast]
    decide

/-- C6: `is_sensitive_message` (i) returns false for blank body text, for any
sender and contact-number arguments; (ii) returns true for a body holding a
6-digit code adjacent to the word "verification", for any sender and
contact-number arguments; and (iii) returns false whenever the combined
sender + contact number + body string has no run of four or more digits and
contains none of the filter's security keywords. -/
theorem is_sensitive_message_spec (text sender contact_number : Val) :
    (is_blank_text text = true →
      is_sensitive_message text sender contact_number = false)
    ∧ is_sensitive_message (.str "verification 552013") sender contact_number = true
    ∧ ((∀ w ∈ sensitiveKeywordList,
          occursCaseless w (sensitiveCombined text sender contact_number).data = false) →
        hasDigitRun4 (sensitiveCombined text sender contact_number).data = false →
        is_sensitive_message text sender contact_number = false) := by
  refine ⟨?_, ?_, ?_⟩
  · intro hblank
    unfold is_blank_text at hblank
    unfold is_sensitive_message
    rw [if_pos hblank]
  · unfold is_sensitive_message
    rw [if_neg (by decide)]
    show (([pat1, pat2, pat3, pat4].any fun p =>
        scanM p none (sensitiveCombined (Val.str "verification 552013") sender contact_number).data)
      || (scanM codeTokenPat none (pyStr (pyOr (Val.str "verification 552013") (Val.str ""))).data
          && scanM ctxPat none
            (sensitiveCombined (Val.str "verification 552013") sender contact_number).data)) = true
    have hcode : scanM codeTokenPat none
        (pyStr (pyOr (Val.str "verification 552013") (Val.str ""))).data = true := by decide
    have hctx := ctx_combined sender contact_number
    rw [hcode, hctx]
    simp
  · intro hkw hdr
    unfold is_sensitive_message
    by_cases hb : (pyStrip (pyStr (pyOr text (.str "")))).isEmpty = true
    · rw [if_pos hb]
    · rw [if_neg hb]
      show (([pat1, pat2, pat3, pat4].any fun p =>
          scanM p none (sensitiveCombined text sender contact_number).data)
        || (scanM codeTokenPat none (pyStr (pyOr text (.str ""))).data
            && scanM ctxPat none (sensitiveCombined text sender contact_number).data)) = false
      have h1 := pat1_refute (sensitiveCombined text sender contact_number).data
        (fun w hw => hkw w (List.mem_append_left _ (List.mem_append_left _ hw)))
      have h2 := pat2_refute (sensitiveCombined text sender contact_number).data
        (fun w hw => hkw w (List.mem_append_left _ (List.mem_append_right _ hw)))
      have h3 := pat3_refute (sensitiveCombined text sender contact_number).data hdr
      have h4 := pat4_refute (sensitiveCombined text sender contact_number).data hdr
      have hctx := ctxPat_refute (sensitiveCombined text sender contact_number).data
        (fun w hw => hkw w (List.mem_append_right _ hw))
      simp only [List.any_cons, List.any_nil]
      rw [h1, h2, h3, h4, hctx]
      simp

/-- Witness for C6 at concrete messages (a blank body, a verification-code
body, and an innocuous body with no digits run and no keyword). -/
theorem is_sensitive_message_spec_witness :
    is_sensitive_message (.str "   ") (.str "x") (.str "y") = false
      ∧ is_sensitive_message (.str "verification 552013") (.str "Friend") Val.null = true
      ∧ is_sensitive_message (.str "See you for dinner.") (.str "Friend") Val.null = false :=
  ⟨(is_sensitive_message_spec (.str "   ") (.str "x") (.str "y")).1 (by decide),
   (is_sensitive_message_spec (.str "x") (.str "Friend") Val.null).2.1,
   (is_sensitive_message_spec (.str "See you for dinner.") (.str "Friend") Val.null).2.2
     (by decide) (by decide)⟩

/-! ### HMAC digest shape and signature-header parsing -/

theorem hexChars_getD_mem (i : Nat) (hi : i < 16) : hexChars.getD i '0' ∈ hexChars := by
  rw [List.getD_eq_getElem hexChars '0' (by simpa [hexChars] using hi)]
  exact List.getElem_mem _

theorem byteHex_mem (b : Nat) : ∀ ch ∈ byteHex b, ch ∈ hexChars := by
  intro ch hch
  simp only [byteHex, List.mem_cons, List.not_mem_nil, or_false] at hch
  rcases hch with rfl | rfl
  · exact hexChars_getD_mem _ (Nat.mod_lt _ (by omega))
  · exact hexChars_getD_mem _ (Nat.mod_lt _ (by omega))

theorem hexdigest_mem (bytes : List Nat) : ∀ ch ∈ hexdigest bytes, ch ∈ hexChars := by
  induction bytes with
  | nil => intro ch hch; simp [hexdigest] at hch
  | cons b bs ih =>
    intro ch hch
    rw [hexdigest] at hch
    rcases List.mem_append.mp hch with h | h
    · exact byteHex_mem b ch h
    · exact ih ch h

theorem hexdigest_length (bytes : List Nat) : (hexdigest bytes).length = 2 * bytes.length := by
  induction bytes with
  | nil => rfl
  | cons b bs ih =>
    rw [hexdigest, List.length_append, ih]
    simp [byteHex]
    omega

theorem compress_length (hs block : List Nat) : (compress hs block).length = 8 := rfl

theorem foldl_compress_length (blocks : List (List Nat)) (hs : List Nat)
    (h : hs.length = 8) : (blocks.foldl compress hs).length = 8 := by
  induction blocks generalizing hs with
  | nil => exact h
  | cons b bs ih => exact ih _ (compress_length hs b)

theorem flatten_word32Bytes_length (ws : List Nat) :
    ((ws.map word32Bytes).flatten).length = 4 * ws.length := by
  induction ws with
  | nil => rfl
  | cons w ws ih =>
    rw [List.map_cons, List.flatten_cons, List.length_append, ih]
    simp [word32Bytes]
    omega

theorem sha256_length (msg : List Nat) : (sha256 msg).length = 32 := by
  unfold sha256
  rw [flatten_word32Bytes_length, foldl_compress_length _ _ (by rfl)]

theorem hmacHexdigest_length (secret : String) (body : List Nat) :
    (hmacHexdigest secret body).length = 64 := by
  unfold hmacHexdigest hmacSha256
  rw [hexdigest_length, sha256_length]

theorem hmacHexdigest_mem (secret : String) (body : List Nat) :
    ∀ ch ∈ hmacHexdigest secret body, ch ∈ hexChars := hexdigest_mem _

theorem dropWhile_all_false (p : Char → Bool) (l : List Char)
    (h : ∀ c ∈ l, p c = false) : l.dropWhile p = l := by
  cases l with
  | nil => rfl
  | cons c rest =>
    rw [List.dropWhile_cons, h c (List.mem_cons_self c rest)]
    simp

theorem stripL_id (l : List Char) (h : ∀ c ∈ l, isPySpace c = false) : pyStripL l = l := by
  unfold pyStripL
  rw [dropWhile_all_false _ _ h]
  rw [dropWhile_all_false _ _ (fun c hc => h c (List.mem_reverse.mp hc))]
  exact List.reverse_reverse l

theorem map_fix (f : Char → Char) (l : List Char) (h : ∀ c ∈ l, f c = c) :
    l.map f = l := by
  induction l with
  | nil => rfl
  | cons c rest ih =>
    rw [List.map_cons, h c (List.mem_cons_self c rest),
      ih (fun x hx => h x (List.mem_cons_of_mem c hx))]

theorem splitOnChar_no_sep (c : Char) (l : List Char) (h : ∀ x ∈ l, x ≠ c) :
    splitOnChar c l = [l] := by
  induction l with
  | nil => rfl
  | cons x xs ih =>
    have hx : x ≠ c := h x (List.mem_cons_self x xs)
    have hxs := ih (fun y hy => h y (List.mem_cons_of_mem x hy))
    show (if x = c then [] :: splitOnChar c xs
      else (x :: (splitOnChar c xs).headD []) :: (splitOnChar c xs).tail) = [x :: xs]
    rw [if_neg hx, hxs]
    rfl

theorem hexChar_not_space : ∀ ch ∈ hexChars, isPySpace ch = false := by decide

theorem hexChar_toLower : ∀ ch ∈ hexChars, Char.toLower ch = ch := by decide

theorem hexChar_ne_comma : ∀ ch ∈ hexChars, ch ≠ ',' := by decide

theorem sha256Tag_not_space : ∀ ch ∈ "sha256=".data, isPySpace ch = false := by decide

theorem sha256Tag_ne_comma : ∀ ch ∈ "sha256=".data, ch ≠ ',' := by decide

theorem candidateOf_prefixed (hd : List Char) (hlen : hd.length = 64)
    (hmem : ∀ ch ∈ hd, ch ∈ hexChars) :
    candidateOf ("sha256=".data ++ hd) = some hd := by
  have hnospace : ∀ ch ∈ "sha256=".data ++ hd, isPySpace ch = false := by
    intro ch hch
    rcases List.mem_append.mp hch with h | h
    · exact sha256Tag_not_space ch h
    · exact hexChar_not_space ch (hmem ch h)
  have hstrip : pyStripL ("sha256=".data ++ hd) = "sha256=".data ++ hd :=
    stripL_id _ hnospace
  have hne : "sha256=".data ++ hd ≠ [] := by
    show 's' :: ("ha256=".data ++ hd) ≠ []
    exact List.cons_ne_nil _ _
  have hcontains : ("sha256=".data ++ hd).contains '=' = true := by
    have hm : '=' ∈ "sha256=".data ++ hd := List.mem_append.mpr (Or.inl (by decide))
    exact List.elem_eq_true_of_mem hm
  have hafter : afterFirst '=' ("sha256=".data ++ hd) = hd := rfl
  have hdrop : dePrefix ("sha256=".data ++ hd) = hd := by
    unfold dePrefix
    rw [if_pos hcontains, hafter]
    exact stripL_id hd (fun c hc => hexChar_not_space c (hmem c hc))
  have hlower : hd.map Char.toLower = hd :=
    map_fix _ hd (fun c hc => hexChar_toLower c (hmem c hc))
  unfold candidateOf
  rw [hstrip]
  rw [if_neg hne]
  rw [hdrop, hlower]
  rw [if_pos ⟨hlen, hmem⟩]

theorem parse_prefixed (hd : List Char) (hlen : hd.length = 64)
    (hmem : ∀ ch ∈ hd, ch ∈ hexChars) :
    parse_signature_candidates (some (String.mk ("sha256=".data ++ hd))) = [hd] := by
  have hne : String.mk ("sha256=".data ++ hd) ≠ "" := by
    intro hc
    have hdata := congrArg String.data hc
    exact List.cons_ne_nil _ _ hdata
  have hnc : ∀ x ∈ "sha256=".data ++ hd, x ≠ ',' := by
    intro x hx
    rcases List.mem_append.mp hx with h | h
    · exact sha256Tag_ne_comma x h
    · exact hexChar_ne_comma x (hmem x h)
  show (if String.mk ("sha256=".data ++ hd) = "" then []
    else (splitOnChar ',' (String.mk ("sha256=".data ++ hd)).data).filterMap candidateOf) = [hd]
  rw [if_neg hne]
  rw [show (String.mk ("sha256=".data ++ hd)).data = "sha256=".data ++ hd from rfl]
  rw [splitOnChar_no_sep ',' _ hnc]
  simp only [List.filterMap_cons]
  rw [candidateOf_prefixed hd hlen hmem]
  rfl

/-- C4: for every non-empty secret and raw body, HMAC verification accepts the
single signature header `sha256=<hex>` where `<hex>` is the hex HMAC-SHA256
digest of the raw body under the secret; and for any single-byte mutation of
the body whose digest differs, the same header is rejected. -/
theorem verify_hmac_signature_spec (secret : String) (body : List Nat)
    (hs : secret ≠ "") :
    verify_hmac_signature body
        [("X-Dialpad-Signature", String.mk ("sha256=".data ++ hmacHexdigest secret body))]
        secret = true
      ∧ (∀ i b, i < body.length →
          hmacHexdigest secret (body.set i b) ≠ hmacHexdigest secret body →
          verify_hmac_signature (body.set i b)
            [("X-Dialpad-Signature", String.mk ("sha256=".data ++ hmacHexdigest secret body))]
            secret = false) := by
  have hvne : String.mk ("sha256=".data ++ hmacHexdigest secret body) ≠ "" := by
    intro hc
    have hdata := congrArg String.data hc
    exact List.cons_ne_nil _ _ hdata
  have hheader1 : getHeader
      [("X-Dialpad-Signature", String.mk ("sha256=".data ++ hmacHexdigest secret body))]
      "X-Dialpad-Signature"
      = some (String.mk ("sha256=".data ++ hmacHexdigest secret body)) := rfl
  have hheader2 : getHeader
      [("X-Dialpad-Signature", String.mk ("sha256=".data ++ hmacHexdigest secret body))]
      "X-Dialpad-Signature-SHA256" = none := rfl
  have hparsed : parse_signature_candidates (getHeader
        [("X-Dialpad-Signature", String.mk ("sha256=".data ++ hmacHexdigest secret body))]
        "X-Dialpad-Signature")
      ++ parse_signature_candidates (getHeader
        [("X-Dialpad-Signature", String.mk ("sha256=".data ++ hmacHexdigest secret body))]
        "X-Dialpad-Signature-SHA256")
      = [hmacHexdigest secret body] := by
    rw [hheader1, hheader2]
    rw [parse_prefixed _ (hmacHexdigest_length secret body) (hmacHexdigest_mem secret body)]
    rfl
  constructor
  · unfold verify_hmac_signature
    rw [if_neg hs]
    rw [hparsed]
    simp
  · intro i b hi hne
    unfold verify_hmac_signature
    rw [if_neg hs]
    rw [hparsed]
    have : (hmacHexdigest secret body == hmacHexdigest secret (body.set i b)) = false := by
      rw [beq_eq_false_iff_ne]
      exact fun hc => hne hc.symm
    simp [this]

/-- Witness for C4: concrete secret `"key"`, body `[0x61]`, and the mutation
of its only byte to `0x62`. -/
theorem verify_hmac_signature_spec_witness :
    verify_hmac_signature [97]
        [("X-Dialpad-Signature", String.mk ("sha256=".data ++ hmacHexdigest "key" [97]))]
        "key" = true
      ∧ verify_hmac_signature ([97].set 0 98)
        [("X-Dialpad-Signature", String.mk ("sha256=".data ++ hmacHexdigest "key" [97]))]
        "key" = false := by
  obtain ⟨hacc, hrej⟩ := verify_hmac_signature_spec "key" [97] (by decide)
  exact ⟨hacc, hrej 0 98 (by decide) (by decide)⟩

theorem has_seen_mono (db : Ledger) (cid t id : String) (h : has_seen db id = true) :
    has_seen (mark_seen db cid t) id = true := by
  unfold mark_seen
  split
  · exact h
  · unfold has_seen at h ⊢
    rw [List.any_append]
    simp [h]

theorem has_seen_mark_cases (db : Ledger) (cid t id : String)
    (h : has_seen (mark_seen db cid t) id = true) :
    has_seen db id = true ∨ id = cid := by
  unfold mark_seen at h
  split at h
  · exact Or.inl h
  · unfold has_seen at h
    rw [List.any_append] at h
    rcases bor_elim _ _ h with h1 | h2
    · exact Or.inl h1
    · right
      simp at h2
      exact h2.symm

/-- The `call_id` string computed by the poller loop for one call. -/
def callIdOf (call : Obj) : String :=
  pyStrip (pyStr (pyOr (getVD call "call_id" .null) (.str "")))

theorem pollLoop_discipline (send : String → Bool) (tsOf : Obj → String)
    (lineNames : List (String × String)) (db : Ledger) (vms : List Obj) :
    (∀ id, has_seen db id = true →
      ∀ m, (id, m) ∉ (pollLoop send tsOf lineNames db vms).2.1)
    ∧ (∀ id, has_seen (pollLoop send tsOf lineNames db vms).1 id = true →
        has_seen db id = true
          ∨ ∃ m, (id, m) ∈ (pollLoop send tsOf lineNames db vms).2.1 ∧ send m = true)
    ∧ (∀ cid m, (cid, m) ∈ (pollLoop send tsOf lineNames db vms).2.1 →
        ∃ call ∈ vms, callIdOf call = cid ∧ build_notification lineNames call = .ok m) := by
  induction vms generalizing db with
  | nil =>
    refine ⟨?_, ?_, ?_⟩
    · intro id hseen m hm
      simp [pollLoop] at hm
    · intro id hseen
      exact Or.inl hseen
    · intro cid m hm
      simp [pollLoop] at hm
  | cons call rest ih =>
    have heq : pollLoop send tsOf lineNames db (call :: rest)
        = (if callIdOf call = "" then pollLoop send tsOf lineNames db rest
          else if has_seen db (callIdOf call) then pollLoop send tsOf lineNames db rest
          else
            match build_notification lineNames call with
            | .error _ => (db, [], 0)
            | .ok message =>
              if send message then
                let r := pollLoop send tsOf lineNames
                  (mark_seen db (callIdOf call) (tsOf call)) rest
                (r.1, (callIdOf call, message) :: r.2.1, r.2.2 + 1)
              else
                let r := pollLoop send tsOf lineNames db rest
                (r.1, (callIdOf call, message) :: r.2.1, r.2.2)) := rfl
    by_cases hid : callIdOf call = ""
    · have heq2 : pollLoop send tsOf lineNames db (call :: rest)
          = pollLoop send tsOf lineNames db rest := by
        rw [heq, if_pos hid]
      rw [heq2]
      obtain ⟨ha, hb, hc⟩ := ih db
      exact ⟨ha, hb, fun cid m hm => by
        obtain ⟨c, hcmem, hcid, hbuild⟩ := hc cid m hm
        exact ⟨c, List.mem_cons_of_mem call hcmem, hcid, hbuild⟩⟩
    · by_cases hseen0 : has_seen db (callIdOf call) = true
      · have heq2 : pollLoop send tsOf lineNames db (call :: rest)
            = pollLoop send tsOf lineNames db rest := by
          rw [heq, if_neg hid, if_pos hseen0]
        rw [heq2]
        obtain ⟨ha, hb, hc⟩ := ih db
        exact ⟨ha, hb, fun cid m hm => by
          obtain ⟨c, hcmem, hcid, hbuild⟩ := hc cid m hm
          exact ⟨c, List.mem_cons_of_mem call hcmem, hcid, hbuild⟩⟩
      · cases hbuild : build_notification lineNames call with
        | error e =>
          have heq2 : pollLoop send tsOf lineNames db (call :: rest)
              = (db, [], 0) := by
            rw [heq, if_neg hid, if_neg hseen0, hbuild]
          rw [heq2]
          refine ⟨?_, ?_, ?_⟩
          · intro id hseen m hm
            simp at hm
          · intro id hseen
            exact Or.inl hseen
          · intro cid m hm
            simp at hm
        | ok message =>
          by_cases hsend : send message = true
          · have heq2 : pollLoop send tsOf lineNames db (call :: rest)
                = ((pollLoop send tsOf lineNames
                      (mark_seen db (callIdOf call) (tsOf call)) rest).1,
                   (callIdOf call, message)
                     :: (pollLoop send tsOf lineNames
                          (mark_seen db (callIdOf call) (tsOf call)) rest).2.1,
                   (pollLoop send tsOf lineNames
                      (mark_seen db (callIdOf call) (tsOf call)) rest).2.2 + 1) := by
              rw [heq, if_neg hid, if_neg hseen0, hbuild]
              simp only [hsend, if_true]
            rw [heq2]
            obtain ⟨ha, hb, hc⟩ := ih (mark_seen db (callIdOf call) (tsOf call))
            refine ⟨?_, ?_, ?_⟩
            · intro id hseen m hm
              rcases List.mem_cons.mp hm with hhd | htl
              · have hide : id = callIdOf call := congrArg Prod.fst hhd
                rw [hide] at hseen
                exact hseen0 hseen
              · exact ha id (has_seen_mono db _ _ id hseen) m htl
            · intro id hseen
              rcases hb id hseen with hleft | ⟨m, hm, hsm⟩
              · rcases has_seen_mark_cases db _ _ id hleft with h1 | h2
                · exact Or.inl h1
                · right
                  refine ⟨message, ?_, hsend⟩
                  rw [h2]
                  exact List.mem_cons_self _ _
              · exact Or.inr ⟨m, List.mem_cons_of_mem _ hm, hsm⟩
            · intro cid m hm
              rcases List.mem_cons.mp hm with hhd | htl
              · have h1 : cid = callIdOf call := congrArg Prod.fst hhd
                have h2 : m = message := congrArg Prod.snd hhd
                exact ⟨call, List.mem_cons_self _ _, h1.symm, by rw [h2, hbuild]⟩
              · obtain ⟨c, hcmem, hcid, hcb⟩ := hc cid m htl
                exact ⟨c, List.mem_cons_of_mem call hcmem, hcid, hcb⟩
          · have heq2 : pollLoop send tsOf lineNames db (call :: rest)
                = ((pollLoop send tsOf lineNames db rest).1,
                   (callIdOf call, message) :: (pollLoop send tsOf lineNames db rest).2.1,
                   (pollLoop send tsOf lineNames db rest).2.2) := by
              rw [heq, if_neg hid, if_neg hseen0, hbuild]
              have hsendf : send message = false := by simpa using hsend
              simp only [hsendf, Bool.false_eq_true, if_false]
            rw [heq2]
            obtain ⟨ha, hb, hc⟩ := ih db
            refine ⟨?_, ?_, ?_⟩
            · intro id hseen m hm
              rcases List.mem_cons.mp hm with hhd | htl
              · have hide : id = callIdOf call := congrArg Prod.fst hhd
                rw [hide] at hseen
                exact hseen0 hseen
              · exact ha id hseen m htl
            · intro id hseen
              rcases hb id hseen with hleft | ⟨m, hm, hsm⟩
              · exact Or.inl hleft
              · exact Or.inr ⟨m, List.mem_cons_of_mem _ hm, hsm⟩
            · intro cid m hm
              rcases List.mem_cons.mp hm with hhd | htl
              · have h1 : cid = callIdOf call := congrArg Prod.fst hhd
                have h2 : m = message := congrArg Prod.snd hhd
                exact ⟨call, List.mem_cons_self _ _, h1.symm, by rw [h2, hbuild]⟩
              · obtain ⟨c, hcmem, hcid, hcb⟩ := hc cid m htl
                exact ⟨c, List.mem_cons_of_mem call hcmem, hcid, hcb⟩

/-- C5: in every poller run, an identifier already in the ledger is never the
subject of a notification attempt; the ledger gains only identifiers whose
built notification was sent successfully (so a failed send leaves the
identifier un-marked, to be retried on the next cycle); and every attempted
message is the built notification of one of the run's voicemail calls. -/
theorem poll_run_ledger_discipline (send : String → Bool) (tsOf : Obj → String)
    (lineNames : List (String × String)) (db : Ledger) (calls : List Val)
    (lookback_ms now_ms : Int) :
    (∀ id, has_seen db id = true →
      ∀ m, (id, m) ∉ (poll_run send tsOf lineNames db calls lookback_ms now_ms).2.1)
    ∧ (∀ id,
        has_seen (poll_run send tsOf lineNames db calls lookback_ms now_ms).1 id = true →
        has_seen db id = true
          ∨ ∃ m, (id, m) ∈ (poll_run send tsOf lineNames db calls lookback_ms now_ms).2.1
              ∧ send m = true)
    ∧ (∀ cid m,
        (cid, m) ∈ (poll_run send tsOf lineNames db calls lookback_ms now_ms).2.1 →
        ∃ call, call ∈ calls.filterMap (fun v =>
            match v with
            | .dict kvs =>
              if has_voicemail kvs && is_within_lookback kvs lookback_ms now_ms
              then some kvs else none
            | _ => none)
          ∧ callIdOf call = cid ∧ build_notification lineNames call = .ok m) := by
  unfold poll_run
  obtain ⟨ha, hb, hc⟩ := pollLoop_discipline send tsOf lineNames db
    (calls.filterMap (fun v =>
      match v with
      | .dict kvs =>
        if has_voicemail kvs && is_within_lookback kvs lookback_ms now_ms
        then some kvs else none
      | _ => none))
  exact ⟨ha, hb, fun cid m hm => by
    obtain ⟨c, hcmem, hcid, hcb⟩ := hc cid m hm
    exact ⟨c, hcmem, hcid, hcb⟩⟩

/-- Witness for C5: a concrete run over one already-seen and one new
voicemail, with an always-succeeding Telegram oracle. -/
theorem poll_run_ledger_discipline_witness :
    (("a", "x") ∉ (poll_run (fun _ => true) (fun _ => "ts") []
        [("a", "t0")]
        [.dict [("call_id", .str "a"), ("voicemail_link", .str "L"),
                ("date_ended", .str "1000")],
         .dict [("call_id", .str "b"), ("voicemail_link", .str "L"),
                ("date_ended", .str "1000")]]
        500 1200).2.1)
    ∧ (has_seen [("a", "t0")] "b" = true
        ∨ ∃ m, ("b", m) ∈ (poll_run (fun _ => true) (fun _ => "ts") []
            [("a", "t0")]
            [.dict [("call_id", .str "a"), ("voicemail_link", .str "L"),
                    ("date_ended", .str "1000")],
             .dict [("call_id", .str "b"), ("voicemail_link", .str "L"),
                    ("date_ended", .str "1000")]]
            500 1200).2.1 ∧ (fun (_ : String) => true) m = true) := by
  obtain ⟨ha, hb, -⟩ := poll_run_ledger_discipline (fun _ => true) (fun _ => "ts") []
    [("a", "t0")]
    [.dict [("call_id", .str "a"), ("voicemail_link", .str "L"),
            ("date_ended", .str "1000")],
     .dict [("call_id", .str "b"), ("voicemail_link", .str "L"),
            ("date_ended", .str "1000")]]
    500 1200
  refine ⟨ha "a" (by decide) "x", hb "b" (by decide)⟩

/-- Counterexample for C1: an inbound payload whose storage reported
`stored=true` but whose `contact` field is a truthy non-dict makes the hook
section raise (`.get` on a string) after storage, so no 200 response — nor
any response — is written, although no notification outcome is involved. -/
theorem handle_webhook_crash_counterexample :
    handle_webhook true
        (some [("direction", .str "inbound"), ("text", .str "hi"),
               ("contact", .str "bob"), ("from_number", .str "+14155550123")])
        (.ok [("stored", .bool true)]) none (false, "request_failed")
      = .error "AttributeError: contact field is not a dict"
      ∧ ∀ (code : Nat) (body : List (String × Val)),
          handle_webhook true
            (some [("direction", .str "inbound"), ("text", .str "hi"),
                   ("contact", .str "bob"), ("from_number", .str "+14155550123")])
            (.ok [("stored", .bool true)]) none (false, "request_failed")
          ≠ .ok (.ok code body) := by
  constructor
  · rfl
  · intro code body hc
    rw [show handle_webhook true
        (some [("direction", .str "inbound"), ("text", .str "hi"),
               ("contact", .str "bob"), ("from_number", .str "+14155550123")])
        (.ok [("stored", .bool true)]) none (false, "request_failed")
      = .error "AttributeError: contact field is not a dict" from rfl] at hc
    exact Except.noConfusion hc

theorem contactInfoOf_ok (result : Obj) (contactLookup : Option String)
    (hmsg : truthy (getVD result "message" .null) = true →
      ∃ kvs, getVD result "message" .null = Val.dict kvs) :
    ∃ ci, contactInfoOf result contactLookup = .ok ci := by
  unfold contactInfoOf
  by_cases h0 : truthy (match contactLookup with | some s => Val.str s | none => Val.null)
  · rw [if_pos h0]
    exact ⟨_, rfl⟩
  · rw [if_neg h0]
    by_cases hm : truthy (getVD result "message" .null) = true
    · rw [if_pos hm]
      obtain ⟨kvs, hk⟩ := hmsg hm
      rw [hk]
      show ∃ ci, (if (truthy (getVD kvs "contact_name" (.str ""))
          && !(valEqStr (getVD kvs "contact_name" (.str "")) "Unknown")) = true
        then Except.ok (getVD kvs "contact_name" (.str ""))
        else (Except.ok (match contactLookup with | some s => Val.str s | none => Val.null) :
          Except String Val)) = .ok ci
      split
      · exact ⟨_, rfl⟩
      · exact ⟨_, rfl⟩
    · rw [if_neg hm]
      exact ⟨_, rfl⟩

theorem hookOutcome_ok (data : Obj) (ci : Val) (text : String) (from_num : Val)
    (hookResult : Bool × String)
    (hcontact : truthy ci = false →
      truthy (getVD data "contact" (.dict [])) = true →
      ∃ kvs, getVD data "contact" (.dict []) = Val.dict kvs) :
    ∃ hk, hookOutcome data ci text from_num hookResult = .ok hk := by
  unfold hookOutcome
  by_cases h1 : classify_inbound_notification data = "missed_call"
  · rw [if_pos h1]
    exact ⟨_, rfl⟩
  · rw [if_neg h1]
    by_cases h2 : classify_inbound_notification data = "blank_sms"
    · rw [if_pos h2]
      exact ⟨_, rfl⟩
    · rw [if_neg h2]
      by_cases h3 : is_sensitive_message (.str text) (pyOr ci (.str "")) from_num = true
      · rw [if_pos h3]
        exact ⟨_, rfl⟩
      · rw [if_neg h3]
        have hnorm : ∃ n, normalize_sms_payload data ci = some n := by
          unfold normalize_sms_payload contactNameOf
          by_cases hci : truthy ci = true
          · rw [if_pos hci]
            exact ⟨_, rfl⟩
          · rw [if_neg hci]
            by_cases hco : truthy (getVD data "contact" (.dict [])) = true
            · obtain ⟨kvs, hk⟩ := hcontact (by simpa using hci) hco
              rw [show pyOr (getVD data "contact" (.dict [])) (.dict [])
                  = getVD data "contact" (.dict []) from by
                unfold pyOr
                rw [if_pos hco]]
              rw [hk]
              exact ⟨_, rfl⟩
            · rw [show pyOr (getVD data "contact" (.dict [])) (.dict [])
                  = Val.dict [] from by
                unfold pyOr
                rw [if_neg hco]]
              exact ⟨_, rfl⟩
        obtain ⟨n, hn⟩ := hnorm
        rw [hn]
        exact ⟨_, rfl⟩

/-- C1 (amended): for every authenticated inbound payload whose storage call
reports `stored=true`, the handler responds 200 with a JSON body containing
`stored: true`, for every possible hook-forwarding outcome (success, non-2xx,
network failure, or missing-token skip) — provided the payload's `contact`
field and the store result's `message` field are dicts whenever truthy (a
truthy non-dict there makes the handler raise instead of responding). -/
theorem handle_webhook_graceful (data result : Obj) (contactLookup : Option String)
    (hookResult : Bool × String)
    (hstored : truthy (getVD result "stored" (.bool false)) = true)
    (hdir : pyLower (pyStr (getVD data "direction" (.str "unknown"))) = "inbound")
    (hmsg : truthy (getVD result "message" .null) = true →
      ∃ kvs, getVD result "message" .null = Val.dict kvs)
    (hcontact : truthy (getVD data "contact" (.dict [])) = true →
      ∃ kvs, getVD data "contact" (.dict []) = Val.dict kvs) :
    ∃ body, handle_webhook true (some data) (.ok result) contactLookup hookResult
        = .ok (.ok 200 body)
      ∧ getV body "stored" = some (.bool true) := by
  have hred : handle_webhook true (some data) (.ok result) contactLookup hookResult
      = if ¬ truthy (getVD result "stored" (.bool false))
        then Except.ok (.err 500 "Storage failed")
        else handle_webhook_stored data result contactLookup hookResult := rfl
  rw [hred, if_neg (by simp [hstored])]
  unfold handle_webhook_stored
  rw [if_pos hdir]
  obtain ⟨ci, hci⟩ := contactInfoOf_ok result contactLookup hmsg
  rw [hci]
  obtain ⟨hk, hhk⟩ := hookOutcome_ok data ci (extract_message_text data)
    (pyOr (first_value (getVD data "from_number" .null)) (.str "N/A")) hookResult
    (fun _ hc => hcontact hc)
  show ∃ body, (match hookOutcome data ci (extract_message_text data)
      (pyOr (first_value (getVD data "from_number" Val.null)) (Val.str "N/A")) hookResult with
    | Except.error e => (Except.error e : Except String HttpResponse)
    | Except.ok hk => Except.ok (HttpResponse.ok 200 (respBody (some hk))))
      = Except.ok (HttpResponse.ok 200 body)
    ∧ getV body "stored" = some (Val.bool true)
  rw [hhk]
  exact ⟨respBody (some hk), rfl, rfl⟩

/-- Witness for C1 (amended) at a concrete inbound payload and failed hook. -/
theorem handle_webhook_graceful_witness :
    ∃ body, handle_webhook true
        (some [("direction", .str "inbound"), ("text", .str "hello"),
               ("from_number", .str "+14155550123")])
        (.ok [("stored", .bool true)]) none (false, "request_failed")
        = .ok (.ok 200 body)
      ∧ getV body "stored" = some (.bool true) :=
  handle_webhook_graceful
    [("direction", .str "inbound"), ("text", .str "hello"),
     ("from_number", .str "+14155550123")]
    [("stored", .bool true)] none (false, "request_failed")
    (by decide) (by decide)
    (fun h => absurd h (by decide))
    (fun h => absurd h (by decide))

/-- Counterexample for C9: the filter substring search only covers the
`external_number`, `from_number`, `to_number` and `contact` fields — a filter
appearing in another string-valued field (here `notes`) selects nothing,
although the claim promises a match against any string-valued field. -/
theorem select_call_counterexample :
    select_call (fun _ => none)
        [[("call_id", Val.str "x"), ("notes", Val.str "target-value")]]
        (some "target-value") = none
      ∧ getV [("call_id", Val.str "x"), ("notes", Val.str "target-value")] "notes"
          = some (.str "target-value")
      ∧ strContains (pyLower "target-value") (pyLower "target-value") = true :=
  ⟨rfl, rfl, by decide⟩

/-- C9 (amended): for a non-empty filter, candidates are restricted to calls
in which the lowered filter occurs in one of the strings extracted
(recursively) from the `external_number`, `from_number`, `to_number` and
`contact` fields; no matching call yields `none`, and a uniquely matching
call is returned. -/
theorem select_call_filter (isoTs : String → Option Frac) (calls : List Obj)
    (s : String) (hs : s ≠ "") :
    ((∀ c ∈ calls,
        (callTextFields c).any (fun t => strContains (pyLower t) (pyLower s)) = false) →
      select_call isoTs calls (some s) = none)
    ∧ (∀ c, calls.filter
          (fun c => (callTextFields c).any (fun t => strContains (pyLower t) (pyLower s)))
          = [c] →
        select_call isoTs calls (some s) = some c) := by
  have hbe : (s != "") = true := by simp [hs]
  constructor
  · intro hnone
    unfold select_call
    by_cases hnil : calls.isEmpty
    · rw [if_pos hnil]
    · rw [if_neg hnil]
      have hfilter : calls.filter
          (fun c => (callTextFields c).any (fun t => strContains (pyLower t) (pyLower s)))
          = [] :=
        List.filter_eq_nil_iff.mpr (by simpa using hnone)
      simp [hbe, hfilter]
  · intro c hone
    unfold select_call
    have hnil : calls.isEmpty = false := by
      cases calls with
      | nil => simp at hone
      | cons a l => rfl
    rw [hnil]
    simp only [Bool.false_eq_true, if_false]
    simp [hbe, hone, List.enum]

/-- Witness for C9 (amended): a unique nested `contact` match is selected and
a filter matching nothing yields `none`. -/
theorem select_call_filter_witness :
    select_call (fun _ => none)
        [[("call_id", Val.str "a"),
          ("contact", Val.dict [("name", Val.str "Pat"), ("phone", Val.str "+14155550111")])],
         [("call_id", Val.str "b"), ("external_number", Val.str "+14155559999")]]
        (some "4155550111")
      = some [("call_id", Val.str "a"),
          ("contact", Val.dict [("name", Val.str "Pat"), ("phone", Val.str "+14155550111")])]
    ∧ select_call (fun _ => none)
        [[("call_id", Val.str "a"),
          ("contact", Val.dict [("name", Val.str "Pat"), ("phone", Val.str "+14155550111")])],
         [("call_id", Val.str "b"), ("external_number", Val.str "+14155559999")]]
        (some "no-such-value") = none := by
  constructor
  · exact (select_call_filter (fun _ => none) _ "4155550111" (by decide)).2 _ rfl
  · exact (select_call_filter (fun _ => none) _ "no-such-value" (by decide)).1 (by decide)

end Dialpad
